import Mathlib

/-!
Verification development for the MyLabVault PDF lab-report parser
(`app/api/services/pdf_parser.py`).

The Python source is shallowly embedded: every method of `PDFParser` that the
checked properties touch is translated into an executable Lean function over
`String` / `List Char`, with Python semantics spelled out explicitly
(string truthiness, `str.strip`, `str.split`, substring `in`, `float(...)`,
and the concrete regular expressions, which are implemented as dedicated
deterministic/backtracking scanners faithful to `re` match semantics for the
specific patterns appearing in the source).

Python `float` values are modelled by `PyFloat` (an exact rational plus the
infinities and NaN): the parser never performs float arithmetic, it only
parses decimal literals and stores the results, so the rational abstraction
is faithful for every property stated here.
-/

namespace MLV

/-- Python whitespace for `str.strip` / `\s`: space, tab, LF, CR, VT, FF. -/
def pyIsSpace (c : Char) : Bool :=
  c = ' ' || c = '\t' || c = '\n' || c = '\r' || c = '\x0b' || c = '\x0c'

/-- ASCII lower-casing of a character (Python `str.lower` on the ASCII inputs used here). -/
def lowC (c : Char) : Char := c.toLower

/-- ASCII upper-casing of a character (Python `str.upper`). -/
def uppC (c : Char) : Char := c.toUpper

/-- Python `str.lower`. -/
def pyLower (s : String) : String := String.mk (s.data.map lowC)

/-- Python `str.upper`. -/
def pyUpper (s : String) : String := String.mk (s.data.map uppC)

/-- Strip leading Python whitespace from a character list. -/
def stripLeadL (cs : List Char) : List Char := cs.dropWhile pyIsSpace

/-- Python `str.strip` on a character list. -/
def pyStripL (cs : List Char) : List Char :=
  ((cs.dropWhile pyIsSpace).reverse.dropWhile pyIsSpace).reverse

/-- Python `str.strip`. -/
def pyStrip (s : String) : String := String.mk (pyStripL s.data)

/-- Python `len` of a string (number of code points). -/
def pyLen (s : String) : Nat := s.data.length

/-- Python string truthiness: nonempty strings are truthy. -/
def pyTruthy (s : String) : Bool := !s.data.isEmpty

/-- Decide whether `pre` is a prefix of `cs`. -/
def isPrefL : List Char → List Char → Bool
  | [], _ => true
  | _ :: _, [] => false
  | p :: ps, c :: cs => p = c && isPrefL ps cs

/-- Python substring test `needle in hay` on character lists. -/
def containsL (needle : List Char) : List Char → Bool
  | [] => needle.isEmpty
  | c :: cs => isPrefL needle (c :: cs) || containsL needle cs

/-- Python `needle in hay` on strings. -/
def pyIn (needle hay : String) : Bool := containsL needle.data hay.data

/-- Case-insensitive `needle in hay` (both sides lowered, as in `x in line.lower()`). -/
def pyInCI (needle hay : String) : Bool := pyIn (pyLower needle) (pyLower hay)

/-- Python `str.startswith` on strings. -/
def pyStartsWith (s pre : String) : Bool := isPrefL pre.data s.data

/-- Split a character list on every occurrence of separator `c`, keeping empty parts
(Python `str.split(sep)` with a one-character separator). -/
def splitOnCharL (c : Char) : List Char → List (List Char)
  | [] => [[]]
  | d :: cs =>
    let r := splitOnCharL c cs
    if d = c then [] :: r
    else match r with
      | [] => [[d]]
      | h :: t => (d :: h) :: t

/-- Python `str.split(sep)` for a one-character separator. -/
def pySplitChar (s : String) (c : Char) : List String :=
  (splitOnCharL c s.data).map String.mk

/-- Split on runs of whitespace, dropping empties (Python `str.split()` with no argument). -/
def pySplitWSL : List Char → List (List Char)
  | [] => []
  | c :: cs =>
    if pyIsSpace c then pySplitWSL cs
    else match pySplitWSL cs with
      | [] => [[c]]
      | h :: t =>
        match cs with
        | [] => [[c]]
        | d :: _ => if pyIsSpace d then [c] :: h :: t else (c :: h) :: t

/-- Python `str.split()` (no argument): split on whitespace runs, dropping empties. -/
def pySplitWS (s : String) : List String := (pySplitWSL s.data).map String.mk

/-- Python idiom `' '.join(s.split())`: collapse all whitespace runs to single spaces
and trim the ends. -/
def pyWSJoin (s : String) : String := String.intercalate " " (pySplitWS s)

/-- One left-to-right, non-overlapping replacement pass (Python `str.replace(pat, rep)`),
with fuel bounded by the input length; `pat` is assumed nonempty at call sites. -/
def pyReplaceL (pat rep : List Char) : Nat → List Char → List Char
  | 0, cs => cs
  | _ + 1, [] => []
  | fuel + 1, c :: cs =>
    if isPrefL pat (c :: cs) && !pat.isEmpty then
      rep ++ pyReplaceL pat rep fuel ((c :: cs).drop pat.length)
    else
      c :: pyReplaceL pat rep fuel cs

/-- Python `str.replace`. -/
def pyReplace (s pat rep : String) : String :=
  String.mk (pyReplaceL pat.data rep.data s.data.length s.data)

/-! ## Python `float(...)` model

`PyFloat` models the result of Python float conversion: an exact rational for
decimal literals (the parser only stores parsed values, never computes with
them, so exact rationals are a faithful abstraction of the IEEE values), plus
the infinities and NaN which `float(str)` also accepts. -/

inductive PyFloat where
  | fin (q : ℚ)
  | inf
  | neginf
  | nan
  deriving DecidableEq, Repr

/-- Numeric value of an ASCII digit. -/
def digitVal (c : Char) : Nat := c.toNat - '0'.toNat

/-- Consume a maximal Python `digitpart` (`digit (['_'] digit)*`): returns the
accumulated value, the number of digits consumed and the rest.  An underscore is
consumed only between two digits, as in Python numeric literals. -/
def digitRun (v n : Nat) : List Char → Nat × Nat × List Char
  | [] => (v, n, [])
  | c :: cs =>
    if c.isDigit then digitRun (10 * v + digitVal c) (n + 1) cs
    else if c = '_' && n ≠ 0 then
      match cs with
      | [] => (v, n, ['_'])
      | d :: cs2 =>
        if d.isDigit then digitRun (10 * v + digitVal d) (n + 1) cs2
        else (v, n, '_' :: d :: cs2)
    else (v, n, c :: cs)

/-- Python `float(str)`: strips whitespace, takes an optional sign and parses the body.
Returns `none` where Python raises `ValueError`. -/
def pyFloat? (s : String) : Option PyFloat :=
  let cs := pyStripL s.data
  let (neg, body) :=
    match cs with
    | '+' :: r => (false, r)
    | '-' :: r => (true, r)
    | r => (false, r)
  let low := body.map lowC
  if low = "inf".data || low = "infinity".data then
    some (if neg then PyFloat.neginf else PyFloat.inf)
  else if low = "nan".data then some PyFloat.nan
  else
    let (ip, nInt, r1) := digitRun 0 0 body
    let fracStep : Nat × Nat × List Char :=
      match r1 with
      | '.' :: r => digitRun 0 0 r
      | _ => (0, 0, r1)
    let fp := fracStep.1
    let nFrac := fracStep.2.1
    let r2 := fracStep.2.2
    if nInt + nFrac = 0 then none
    else
      -- the magnitude is (ip.nFrac-digits-of-fp) = (ip·10^nFrac + fp) / 10^nFrac,
      -- scaled by 10^exponent; built with `mkRat` so the value is in lowest terms
      let mantNum : Int := (ip * 10 ^ nFrac + fp : Nat)
      let snum : Int := if neg then -mantNum else mantNum
      match r2 with
      | [] => some (PyFloat.fin (mkRat snum (10 ^ nFrac)))
      | e :: r3 =>
        if e = 'e' || e = 'E' then
          let expStep : Bool × List Char :=
            match r3 with
            | '+' :: r => (false, r)
            | '-' :: r => (true, r)
            | r => (false, r)
          let (ev, nExp, r5) := digitRun 0 0 expStep.2
          if nExp = 0 || !r5.isEmpty then none
          else if expStep.1 then some (PyFloat.fin (mkRat snum (10 ^ nFrac * 10 ^ ev)))
          else some (PyFloat.fin (mkRat (snum * 10 ^ ev) (10 ^ nFrac)))
        else none

/-! ## Instructional-skip patterns

The `INSTRUCTIONAL_SKIP_PATTERNS` regexes of the source use only literal
characters, an optional character (`s?`), `\s*`, `\s+` and the `^`/`$`
anchors, always searched case-insensitively.  They are embedded as token
lists with a complete existence-matcher (the search only needs a Boolean). -/

inductive SToken where
  | lit (c : Char)
  | optChar (c : Char)
  | ws0
  | ws1
  deriving Repr

structure SPattern where
  bol : Bool
  toks : List SToken
  eol : Bool

/-- Match a token list against the character list, case-insensitively; when
`eol` is set the match must end at the end of input (or just before a final
newline, as Python `$` allows).  Structural fuel: every step strictly
decreases `ts.length + cs.length`, so `ts.length + cs.length + 1` suffices. -/
def matchToks (eol : Bool) : Nat → List SToken → List Char → Bool
  | 0, _, _ => false
  | _ + 1, [], cs => if eol then cs = [] || cs = ['\n'] else true
  | _ + 1, SToken.lit _ :: _, [] => false
  | fuel + 1, SToken.lit c :: ts, d :: cs => lowC d = lowC c && matchToks eol fuel ts cs
  | fuel + 1, SToken.optChar _ :: ts, [] => matchToks eol fuel ts []
  | fuel + 1, SToken.optChar c :: ts, d :: cs =>
    (lowC d = lowC c && matchToks eol fuel ts cs) || matchToks eol fuel ts (d :: cs)
  | fuel + 1, SToken.ws0 :: ts, [] => matchToks eol fuel ts []
  | fuel + 1, SToken.ws0 :: ts, d :: cs =>
    matchToks eol fuel ts (d :: cs) || (pyIsSpace d && matchToks eol fuel (SToken.ws0 :: ts) cs)
  | _ + 1, SToken.ws1 :: _, [] => false
  | fuel + 1, SToken.ws1 :: ts, d :: cs =>
    pyIsSpace d && matchToks eol fuel (SToken.ws0 :: ts) cs

/-- Run `matchToks` with adequate fuel. -/
def matchToksF (eol : Bool) (ts : List SToken) (cs : List Char) : Bool :=
  matchToks eol (ts.length + cs.length + 1) ts cs

/-- Search for the pattern anywhere in the input (Python `re.search`); a
`^`-anchored pattern matches only at the start of the input (no MULTILINE). -/
def searchToks (p : SPattern) : List Char → Bool
  | [] => matchToksF p.eol p.toks []
  | c :: cs =>
    if p.bol then matchToksF p.eol p.toks (c :: cs)
    else matchToksF p.eol p.toks (c :: cs) || searchToks p cs

/-- Literal characters of a regex fragment as tokens. -/
def lits (s : String) : List SToken := s.data.map SToken.lit

/-- Tokens for the common shape `^\s*WORDS\s*$` (with `\s+` between words). -/
def anchoredWords (ws : List String) : SPattern :=
  { bol := true
    toks := [SToken.ws0] ++ List.intercalate [SToken.ws1] (ws.map lits) ++ [SToken.ws0]
    eol := true }

/-- The 28 `INSTRUCTIONAL_SKIP_PATTERNS` of the source, in order. -/
def instructionalSkipPatterns : List SPattern :=
  [ ⟨false, lits "Comment" ++ [SToken.optChar 's'] ++ lits ":", false⟩
  , ⟨false, lits "Interpretation:", false⟩
  , ⟨false, lits "Please note", false⟩
  , ⟨false, lits "Note:", false⟩
  , ⟨false, lits "Important:", false⟩
  , ⟨false, lits "Instruction" ++ [SToken.optChar 's'] ++ lits ":", false⟩
  , ⟨false, lits "Disclaimer:", false⟩
  , ⟨false, lits "Warning:", false⟩
  , ⟨false, lits "Request Problem", false⟩
  , anchoredWords ["Borderline", "High"]
  , anchoredWords ["Very", "High"]
  , anchoredWords ["High"]
  , anchoredWords ["Low"]
  , anchoredWords ["Normal"]
  , anchoredWords ["Abnormal"]
  , anchoredWords ["High", "Risk"]
  , anchoredWords ["Moderate", "Risk"]
  , anchoredWords ["Low", "Risk"]
  , ⟨false, lits "insufficiency" ++ [SToken.ws1] ++ lits "as" ++ [SToken.ws1] ++
      lits "a" ++ [SToken.ws1] ++ lits "level", false⟩
  , ⟨false, lits "guideline." ++ [SToken.ws0] ++ lits "JCEM", false⟩
  , ⟨false, lits "between" ++ [SToken.ws0], true⟩
  , anchoredWords ["Reference", "Range"]
  , anchoredWords ["Flag"]
  , { bol := true
      toks := [SToken.ws0] ++ lits "Unit" ++ [SToken.optChar 's', SToken.ws0]
      eol := true }
  , anchoredWords ["Result"]
  , anchoredWords ["Test"]
  , anchoredWords ["Component"]
  , anchoredWords ["Status"] ]

/-- `PDFParser._is_instructional_text`. -/
def is_instructional_text (s : String) : Bool :=
  if !pyTruthy s then false
  else instructionalSkipPatterns.any (fun p => searchToks p s.data)

/-! ## Pagination patterns and `re.sub` removal

The four `PAGINATION_PATTERNS` consist of `\s*`, `\s+`, `\d+` and literals;
every adjacent pair of tokens has disjoint first-character classes, so each
pattern matches deterministically by maximal munch, exactly as the
backtracking regex engine would. -/

inductive PToken where
  | plit (c : Char)
  | pws0
  | pws1
  | pdigits
  deriving Repr

/-- Attempt to match the pagination token list at the head of the input
(case-insensitively); returns the unconsumed rest on success. -/
def matchPToksAt : List PToken → List Char → Option (List Char)
  | [], cs => some cs
  | PToken.plit c :: ts, d :: cs =>
    if lowC d = lowC c then matchPToksAt ts cs else none
  | PToken.plit _ :: _, [] => none
  | PToken.pws0 :: ts, cs => matchPToksAt ts (cs.dropWhile pyIsSpace)
  | PToken.pws1 :: ts, d :: cs =>
    if pyIsSpace d then matchPToksAt ts (cs.dropWhile pyIsSpace) else none
  | PToken.pws1 :: _, [] => none
  | PToken.pdigits :: ts, cs =>
    if (cs.takeWhile Char.isDigit).isEmpty then none
    else matchPToksAt ts (cs.dropWhile Char.isDigit)

/-- The four `PAGINATION_PATTERNS`, in order. -/
def paginationPatterns : List (List PToken) :=
  [ [PToken.pws0] ++ "page".data.map PToken.plit ++ [PToken.pws1, PToken.pdigits, PToken.pws1] ++
      "of".data.map PToken.plit ++ [PToken.pws1, PToken.pdigits]
  , [PToken.pws0, PToken.pdigits, PToken.pws1] ++ "of".data.map PToken.plit ++
      [PToken.pws1, PToken.pdigits]
  , [PToken.pws0, PToken.plit 'p', PToken.plit '.', PToken.pws0, PToken.pdigits,
      PToken.pws0, PToken.plit '/', PToken.pws0, PToken.pdigits]
  , [PToken.pws0, PToken.plit '(', PToken.pws0, PToken.pdigits, PToken.pws0,
      PToken.plit '/', PToken.pws0, PToken.pdigits, PToken.pws0, PToken.plit ')'] ]

/-- Remove every non-overlapping leftmost match of the token list from the input
(Python `re.sub(pattern, "", text)`); every pagination pattern consumes at least
one character, so the length-based fuel suffices. -/
def pagSub (ts : List PToken) : Nat → List Char → List Char
  | 0, cs => cs
  | _ + 1, [] => []
  | fuel + 1, c :: cs =>
    match matchPToksAt ts (c :: cs) with
    | some rest => pagSub ts fuel rest
    | none => c :: pagSub ts fuel cs

/-- `PDFParser._clean_pagination_text`. -/
def clean_pagination_text (s : String) : String :=
  if !pyTruthy s then s
  else
    let cleaned := paginationPatterns.foldl
      (fun cs ts => pagSub ts (cs.length + 1) cs) s.data
    String.mk (pyStripL cleaned)

/-! ## The compiled one-off patterns of `__init__` -/

/-- Character class `[\d.]`. -/
def isDigitDot (c : Char) : Bool := c.isDigit || c = '.'

/-- Drop a final newline, as Python `$` also matches just before one. -/
def dropFinalNL (cs : List Char) : List Char :=
  if cs.getLast? = some '\n' then cs.dropLast else cs

/-- `self.numeric_pattern = re.compile(r'^[<>]?[\d.]+$')`, used with `.match`
(anchored), so it decides full-string membership. -/
def matchNumericPattern (s : String) : Bool :=
  let cs := dropFinalNL s.data
  match cs with
  | '<' :: rest => !rest.isEmpty && rest.all isDigitDot
  | '>' :: rest => !rest.isEmpty && rest.all isDigitDot
  | rest => !rest.isEmpty && rest.all isDigitDot

/-- Character class `[A-Za-z/%\-\(\).]` of `unit_pattern`. -/
def isUnitChar (c : Char) : Bool :=
  c.isAlpha || c = '/' || c = '%' || c = '-' || c = '(' || c = ')' || c = '.'

/-- `self.unit_pattern = re.compile(r'^[A-Za-z/%\-\(\).]+$')`, used with `.match`. -/
def matchUnitPattern (s : String) : Bool :=
  let cs := dropFinalNL s.data
  !cs.isEmpty && cs.all isUnitChar

/-- `self.range_pattern = re.compile(r'-|>|<')`, used with `.search`. -/
def searchRangePattern (s : String) : Bool :=
  s.data.any (fun c => c = '-' || c = '>' || c = '<')

/-- Attempt `\d+\.?\d*\s*(mg/dL|mmol/L|g/dL|%|x10E\d|uIU/mL)` at the head of the
input (case-sensitive, as compiled); maximal munch is equivalent to the regex
here because no alternative starts with a digit, a dot or whitespace. -/
def testResultAt (cs : List Char) : Bool :=
  if (cs.takeWhile Char.isDigit).isEmpty then false
  else
    let r1 := cs.dropWhile Char.isDigit
    let r2 := match r1 with
      | '.' :: r => r.dropWhile Char.isDigit
      | _ => r1
    let r3 := r2.dropWhile pyIsSpace
    isPrefL "mg/dL".data r3 || isPrefL "mmol/L".data r3 || isPrefL "g/dL".data r3 ||
    isPrefL "%".data r3 || isPrefL "uIU/mL".data r3 ||
    (isPrefL "x10E".data r3 && (match r3.drop 4 with | d :: _ => d.isDigit | [] => false))

/-- `self.test_result_pattern` searched anywhere in the line (`re.search`). -/
def searchTestResultPattern (s : String) : Bool :=
  (List.range (s.data.length)).any (fun i => testResultAt (s.data.drop i))

/-- The `invalid_artifacts` substring list of `_is_valid_test_name`. -/
def invalidArtifacts : List String :=
  [ "borderline high", "high", "low", "normal", "abnormal", "very high"
  , "high risk", "moderate risk", "low risk", "risk"
  , "result", "flag", "units", "reference", "interval"
  , "component", "status", "test", "range"
  , "insufficiency", "guideline", "jcem", "between"
  , "previous", "current", "date", "collected" ]

/-- `PDFParser._is_valid_test_name`. -/
def is_valid_test_name (test_name : String) : Bool :=
  if !pyTruthy test_name || pyLen test_name < 3 then false
  else if is_instructional_text test_name then false
  else !invalidArtifacts.any (fun a => pyIn a (pyLower test_name))

/-! ## Value Normalizer -/

/-- Result dictionary of `parse_reference_range`: `{'low': ..., 'high': ..., 'text': ...}`. -/
structure RefRange where
  low : Option PyFloat
  high : Option PyFloat
  text : String
  deriving DecidableEq, Repr

/-- `PDFParser.parse_reference_range`. -/
def parse_reference_range (text : String) : RefRange :=
  if !pyTruthy text then ⟨none, none, ""⟩
  else
    let t := pyStrip text
    if pyIn "-" t && !pyStartsWith t "<" && !pyStartsWith t ">" then
      match pySplitChar t '-' with
      | [a, b] =>
        match pyFloat? (pyStrip a), pyFloat? (pyStrip b) with
        | some lo, some hi => ⟨some lo, some hi, t⟩
        | _, _ => ⟨none, none, t⟩
      | _ => ⟨none, none, t⟩
    else if pyStartsWith t "<" then
      match pyFloat? (pyStrip (String.mk (t.data.drop 1))) with
      | some v => ⟨none, some v, t⟩
      | none => ⟨none, none, t⟩
    else if pyStartsWith t ">" then
      match pyFloat? (pyStrip (String.mk (t.data.drop 1))) with
      | some v => ⟨some v, none, t⟩
      | none => ⟨none, none, t⟩
    else ⟨none, none, t⟩

/-- `PDFParser.parse_numeric_result`: `re.sub(r'[<>]', '', result)` removes every
`<` and `>` (anywhere in the string), then `float(...)`. -/
def parse_numeric_result (result : String) : Option PyFloat :=
  if !pyTruthy result then none
  else pyFloat? (String.mk (result.data.filter (fun c => !(c = '<' || c = '>'))))

/-- The `qualitative_patterns` vocabulary of `is_qualitative_result`. -/
def qualitativePatterns : List String :=
  [ "NEGATIVE", "POSITIVE", "NON REACTIVE", "REACTIVE", "INDETERMINATE"
  , "NOT DETECTED", "DETECTED", "BORDERLINE", "ABNORMAL", "NORMAL"
  , "SATISFACTORY", "UNSATISFACTORY", "PRESENT", "ABSENT"
  , "HIGH", "LOW", "CRITICAL", "TOXIC", "THERAPEUTIC" ]

/-- `PDFParser.is_qualitative_result`. -/
def is_qualitative_result (result : String) : Bool :=
  if !pyTruthy result then false
  else
    let result_clean := pyUpper (pyStrip result)
    qualitativePatterns.any (fun p => pyIn p result_clean)

/-- `negative_variants` of `standardize_qualitative_result`. -/
def negativeVariants : List String := ["NEGATIVE", "NON REACTIVE", "NOT DETECTED", "ABSENT"]

/-- `positive_variants` of `standardize_qualitative_result`. -/
def positiveVariants : List String := ["POSITIVE", "REACTIVE", "DETECTED", "PRESENT"]

/-- `indeterminate_variants` of `standardize_qualitative_result`. -/
def indeterminateVariants : List String := ["INDETERMINATE", "BORDERLINE", "INCONCLUSIVE"]

/-- `PDFParser.standardize_qualitative_result`. -/
def standardize_qualitative_result (result : String) : String :=
  if !pyTruthy result then result
  else
    let result_clean := pyUpper (pyStrip result)
    if negativeVariants.any (fun v => pyIn v result_clean) then "Negative"
    else if positiveVariants.any (fun v => pyIn v result_clean) then "Positive"
    else if indeterminateVariants.any (fun v => pyIn v result_clean) then "Indeterminate"
    else pyStrip result

/-- `PDFParser.apply_unit_mappings`.  A Python `None` unit is represented as `""`
(they are interchangeable here: both are falsy and the final
`current_unit or ''` maps both to `''`). -/
def apply_unit_mappings (test_name current_unit : String) : String :=
  let viaClean : Option String :=
    if pyTruthy current_unit then
      let cleaned := clean_pagination_text current_unit
      if pyTruthy cleaned then some cleaned else none
    else none
  match viaClean with
  | some u => u
  | none =>
    let tn := pyLower test_name
    if pyIn "egfr" tn then "mL/min/1.73m²"
    else if pyIn "bun/creatinine" tn || pyIn "bun/crea" tn then "ratio"
    else if pyIn "a/g ratio" tn then "ratio"
    else if pyIn "globulin" tn && pyIn "total" tn then "g/dL"
    else if pyTruthy current_unit then current_unit else ""

/-- Reference-range dictionary with a possibly-absent/None `text` field, as built
by the LabCorp line parser before `apply_reference_range_mappings`. -/
structure RefMap where
  low : Option PyFloat
  high : Option PyFloat
  text : Option String
  deriving DecidableEq, Repr

/-- `PDFParser.apply_reference_range_mappings`.  The guard
`if current_range and current_range.get('text')` reduces to the `text` field
being a truthy string, because every caller passes a (truthy) nonempty dict. -/
def apply_reference_range_mappings (test_name : String) (current : RefMap) : RefMap :=
  if (match current.text with | some t => pyTruthy t | none => false) then current
  else
    let tn := pyLower test_name
    if pyIn "egfr" tn then ⟨some (PyFloat.fin 90), none, some "≥90"⟩
    else if pyIn "bun/creatinine" tn || pyIn "bun/crea" tn then
      ⟨some (PyFloat.fin 8), some (PyFloat.fin 27), some "8-27"⟩
    else if pyIn "a/g ratio" tn then
      ⟨some (PyFloat.fin (mkRat 12 10)), some (PyFloat.fin (mkRat 22 10)), some "1.2-2.2"⟩
    else if pyIn "globulin" tn && pyIn "total" tn then
      ⟨some (PyFloat.fin (mkRat 15 10)), some (PyFloat.fin (mkRat 45 10)), some "1.5-4.5"⟩
    else current

/-! ## Table Strategy -/

/-- Python `None`-or-falsy test for an optional string (`not x` where `x` is
`None` or a string). -/
def pyFalsyO : Option String → Bool
  | none => true
  | some s => !pyTruthy s

/-- Truthiness of an optional string (`if x:` where `x` is `None` or a string). -/
def pyTruthyO (o : Option String) : Bool := !pyFalsyO o

/-- Test-record dictionary produced by the table strategy
(`process_row_with_headers` / `process_row_heuristic`); `panel_name` is the
key optionally added afterwards by `process_table_with_ordered_panels`. -/
structure RowRec where
  name : String
  result : String
  result_text : Option String
  unit : String
  reference_range : RefRange
  is_numeric : Bool
  is_qualitative : Bool
  numeric_value : Option PyFloat
  panel_name : Option String := none
  deriving DecidableEq, Repr

/-- The `column_map` dictionary of `process_row_with_headers`. -/
structure ColMap where
  test : Option Nat := none
  result : Option Nat := none
  unit : Option Nat := none
  reference : Option Nat := none
  deriving DecidableEq, Repr

/-- Build the column→role map from the normalized headers.  The `elif` chain of
the source assigns the first matching role per header (later headers overwrite
earlier ones for the same role); headers containing `FLAG` or `LAB` reach the
final `elif` and are only recorded in the unused `ignored_columns` list, so
they never enter the map. -/
def buildColumnMap (normalized : List String) : ColMap :=
  normalized.enum.foldl
    (fun m ih =>
      let i := ih.1
      let header := ih.2
      if pyIn "TEST" header then { m with test := some i }
      else if pyIn "RESULT" header then { m with result := some i }
      else if pyIn "UNIT" header then { m with unit := some i }
      else if pyIn "REFERENCE" header || pyIn "INTERVAL" header then
        { m with reference := some i }
      else m)
    {}

/-- Normalization `header.strip().upper() if header else ''` applied to a header row. -/
def normalizeHeaders (headers : List String) : List String :=
  headers.map (fun h => if pyTruthy h then pyUpper (pyStrip h) else "")

/-- Read `row[i]` when the role is mapped and `column_map[role] < len(row)`. -/
def cellAt (row : List String) : Option Nat → Option String
  | some i => if i < row.length then some (row.getD i "") else none
  | none => none

/-- `PDFParser.process_row_heuristic`: the per-cell scanning loop, carried as a
fold over the row with state `(test_name, result, unit, reference_range)`. -/
def heuristicStep (st : Option String × Option String × Option String × Option String)
    (cell : String) : Option String × Option String × Option String × Option String :=
  let tn := st.1
  let res := st.2.1
  let unit := st.2.2.1
  let ref := st.2.2.2
  if pyTruthy cell && pyFalsyO tn && !matchNumericPattern cell then
    let t2 := clean_pagination_text (pyWSJoin cell)
    if !is_valid_test_name t2 then (none, res, unit, ref)
    else (some t2, res, unit, ref)
  else if pyTruthy cell && pyFalsyO res && matchNumericPattern cell then
    (tn, some cell, unit, ref)
  else if pyTruthy cell && pyFalsyO unit && matchUnitPattern cell then
    (tn, res, some (clean_pagination_text cell), ref)
  else if pyTruthy cell && pyFalsyO ref && searchRangePattern cell then
    (tn, res, unit, some cell)
  else (tn, res, unit, ref)

/-- `PDFParser.process_row_heuristic`. -/
def process_row_heuristic (row : List String) : Option RowRec :=
  let st := row.foldl heuristicStep (none, none, none, none)
  let test_name := st.1
  let result := st.2.1
  let unit := st.2.2.1
  let reference_range := st.2.2.2
  if pyFalsyO test_name || pyFalsyO result then none
  else
    let tn := test_name.getD ""
    let res := result.getD ""
    if res = "01" && (["immature", "nrbc", "comment"].any (fun k => pyIn k (pyLower tn))) then
      none
    else
      let unitS := apply_unit_mappings tn (unit.getD "")
      let numeric_value := parse_numeric_result res
      let is_qual := is_qualitative_result res
      let pair : Option String × Option PyFloat :=
        if is_qual then (some (standardize_qualitative_result res), none)
        else (none, numeric_value)
      some { name := tn, result := res, result_text := pair.1
           , unit := unitS
           , reference_range := parse_reference_range (reference_range.getD "")
           , is_numeric := pair.2.isSome, is_qualitative := is_qual
           , numeric_value := pair.2 }

/-- The `if test_name:` clean-up block of `process_row_with_headers`, with the
early `return None` for invalid names encoded as the outer `none`. -/
def cleanTestNameCell : Option String → Option (Option String)
  | some t =>
    if pyTruthy t then
      let t2 := clean_pagination_text (pyWSJoin t)
      if !is_valid_test_name t2 then none else some (some t2)
    else some (some t)
  | none => some none

/-- The `if unit:` pagination clean-up block of `process_row_with_headers`. -/
def cleanUnitCell : Option String → Option String
  | some u => if pyTruthy u then some (clean_pagination_text u) else some u
  | none => none

/-- The tail of `process_row_with_headers` after the role-mapped values are in
hand: instructional-text rejection, the `"01"` artifact rejection, unit
mapping, numeric/qualitative classification and the record dictionary. -/
def buildHeaderRowRec (tn res unitV refV : String) : Option RowRec :=
  if is_instructional_text tn then none
  else if res = "01" && (["immature", "nrbc", "comment"].any (fun k => pyIn k (pyLower tn))) then
    none
  else
    let unitS := apply_unit_mappings tn unitV
    let numeric_value := parse_numeric_result res
    let is_qual := is_qualitative_result res
    let pair : Option String × Option PyFloat :=
      if is_qual then (some (standardize_qualitative_result res), none)
      else (none, numeric_value)
    some { name := tn, result := res, result_text := pair.1
         , unit := unitS
         , reference_range := parse_reference_range refV
         , is_numeric := pair.2.isSome, is_qualitative := is_qual
         , numeric_value := pair.2 }

/-- `PDFParser.process_row_with_headers`. -/
def process_row_with_headers (row headers : List String) : Option RowRec :=
  let normalized := normalizeHeaders headers
  let m := buildColumnMap normalized
  match cleanTestNameCell (cellAt row m.test) with
  | none => none
  | some test_name =>
    let result := cellAt row m.result
    let unit := cleanUnitCell (cellAt row m.unit)
    let reference_range := cellAt row m.reference
    if pyFalsyO test_name || pyFalsyO result then process_row_heuristic row
    else
      buildHeaderRowRec (test_name.getD "") (result.getD "") (unit.getD "")
        (reference_range.getD "")

/-- `PDFParser.process_table_row`. -/
def process_table_row (row headers : List String) : Option RowRec :=
  if row.isEmpty then none
  else
    let cleaned := row.map (fun c => if pyTruthy c then pyStrip c else "")
    if !cleaned.any pyTruthy then none
    else
      let first_cell := cleaned.headD ""
      if is_instructional_text first_cell then none
      else if !headers.isEmpty then process_row_with_headers cleaned headers
      else process_row_heuristic cleaned

/-- `PDFParser.is_test_results_table`. -/
def is_test_results_table (headers : List String) : Bool :=
  if headers.isEmpty then false
  else
    let normalized := normalizeHeaders headers
    let has_test := normalized.any (fun h => pyIn "TEST" h)
    let has_result := normalized.any (fun h => pyIn "RESULT" h)
    if !(has_test && has_result) then false
    else
      let joined := String.intercalate " " normalized
      if ["SPECIMEN", "PATIENT", "ACCOUNT", "CONTROL"].any (fun ind => pyIn ind joined) then
        false
      else if normalized.length = 1 && pyIn "TESTS ORDERED" (normalized.headD "") then false
      else true

/-- `PDFParser.match_row_to_ordered_panel`. -/
def match_row_to_ordered_panel (row ordered_panels : List String) : Option String :=
  if row.isEmpty || ordered_panels.isEmpty then none
  else
    let first_cell :=
      (row.find? (fun cell => pyTruthy cell && pyTruthy (pyStrip cell))).map pyWSJoin
    match first_cell with
    | none => none
    | some fc =>
      let has_numeric_result := (row.drop 1).any
        (fun cell => pyTruthy cell && matchNumericPattern (pyStrip cell))
      if has_numeric_result then none
      else
        ordered_panels.find? (fun panel =>
          pyLower fc = pyLower panel ||
          ((pyIn (pyLower panel) (pyLower fc) || pyIn (pyLower fc) (pyLower panel)) &&
            pyLen fc > 5))

/-- The `panel_test_patterns` table of `infer_panel_from_test_name`, in the
source's (insertion-ordered) dictionary order. -/
def panelTestPatterns : List (String × List String) :=
  [ ("cbc", ["wbc", "rbc", "hemoglobin", "hematocrit", "mcv", "mch", "mchc", "rdw",
      "platelets", "neutrophils", "lymphs", "monocytes", "eos", "basos", "platelet"])
  , ("metabolic", ["glucose", "bun", "creatinine", "egfr", "sodium", "potassium",
      "chloride", "co2", "carbon dioxide", "albumin", "protein", "bilirubin",
      "alkaline", "ast", "alt"])
  , ("lipid", ["cholesterol", "triglycerides", "hdl", "ldl", "vldl"])
  , ("hepatitis", ["hbsag", "hcv", "hep a", "hep b", "hepatitis"])
  , ("thyroid", ["tsh", "thyroid"])
  , ("vitamin", ["vitamin", "b12", "folate"])
  , ("hormone", ["testosterone", "estrogen", "hormone"])
  , ("diabetes", ["a1c", "hemoglobin a1c"]) ]

/-- The type-specific discriminator (`type_match`) of `infer_panel_from_test_name`,
applied to the lower-cased ordered-panel string. -/
def panelTypeMatch (ptype panelLower : String) : Bool :=
  if ptype = "metabolic" then pyIn "metabolic" panelLower || pyIn "cmp" panelLower
  else if ptype = "cbc" then
    (pyIn "cbc" panelLower || pyIn "blood count" panelLower) && !pyIn "metabolic" panelLower
  else if ptype = "lipid" then pyIn "lipid" panelLower
  else if ptype = "hepatitis" then pyIn "hepatitis" panelLower
  else if ptype = "thyroid" then pyIn "thyroid" panelLower
  else if ptype = "vitamin" then pyIn "vitamin" panelLower
  else if ptype = "hormone" then pyIn "hormone" panelLower || pyIn "testosterone" panelLower
  else if ptype = "diabetes" then pyIn "a1c" panelLower
  else false

/-- Keyword-hit count of a panel type's pattern list in the prepared test name. -/
def keywordHits (patterns : List String) (tnl : String) : Nat :=
  (patterns.filter (fun p => pyIn p tnl)).length

/-- `PDFParser.infer_panel_from_test_name`: the nested best-match loops carried
as folds over the pattern table and the ordered panels, with state
`(best_match, best_match_count)`. -/
def infer_panel_from_test_name (test_name : String) (ordered_panels : List String) :
    Option String :=
  if !pyTruthy test_name || ordered_panels.isEmpty then none
  else
    let tnl := pyStrip (pyReplace (pyReplace (pyLower test_name) "\n" " ") "  " " ")
    let step := panelTestPatterns.foldl
      (fun (st : Option String × Nat) tp =>
        let hits := keywordHits tp.2 tnl
        if hits > 0 then
          ordered_panels.foldl
            (fun st2 op =>
              if panelTypeMatch tp.1 (pyLower op) && hits > st2.2 then (some op, hits)
              else st2)
            st
        else st)
      (none, 0)
    step.1

/-- One data-row step of `process_table_with_ordered_panels`: state is
`(current_panel, accumulated tests)`. -/
def tableRowStep (ordered_panels headers : List String)
    (st : Option String × List RowRec) (row : List String) :
    Option String × List RowRec :=
  if !(row.any (fun c => pyTruthy c && pyTruthy (pyStrip c))) then st
  else
    let pn := match_row_to_ordered_panel row ordered_panels
    if pyTruthyO pn then (pn, st.2)
    else
      match process_table_row row headers with
      | none => st
      | some test =>
        if pyTruthyO st.1 then (st.1, st.2 ++ [{ test with panel_name := st.1 }])
        else
          let inferred := infer_panel_from_test_name test.name ordered_panels
          if pyTruthyO inferred then (inferred, st.2 ++ [{ test with panel_name := inferred }])
          else (st.1, st.2 ++ [test])

/-- `PDFParser.process_table_with_ordered_panels`. -/
def process_table_with_ordered_panels (table : List (List String))
    (ordered_panels : List String) : List RowRec :=
  if table.length < 2 then []
  else
    let header_row :=
      match table.enum.find? (fun ir =>
        !ir.2.isEmpty && ir.2.any (fun cell =>
          pyTruthy cell &&
            (pyIn "test" (pyLower cell) || pyIn "result" (pyLower cell) ||
              pyIn "reference" (pyLower cell)))) with
      | some ir => ir.1
      | none => 0
    let headers := table.getD header_row []
    if !is_test_results_table headers then []
    else
      ((table.drop (header_row + 1)).foldl (tableRowStep ordered_panels headers) (none, [])).2

/-! ## Ordered-Panel Extractor -/

/-- `PDFParser.extract_single_panel_from_text`.

The regex `re.match(r'([^()]+)\s*\([0-9]+\)', text)` can only place `\(` at the
first parenthesis character of the string: `[^()]+` cannot cross a parenthesis
and backtracking can only shrink the prefix, after which `\s*\(` would have to
match non-parenthesis prefix characters.  So it matches exactly when the
(nonempty) paren-free prefix is followed by `(`, one or more digits and `)`,
and the group is that prefix. -/
def extract_single_panel_from_text (text : String) : Option String :=
  if !pyTruthy text || pyLen text < 5 then none
  else if is_instructional_text text then none
  else
    let pre := text.data.takeWhile (fun c => !(c = '(' || c = ')'))
    let rest := text.data.drop pre.length
    let matched : Option String :=
      if pre.isEmpty then none
      else
        match rest with
        | '(' :: r =>
          let ds := r.takeWhile Char.isDigit
          if !ds.isEmpty && (match r.drop ds.length with | ')' :: _ => true | _ => false) then
            some (String.mk (pyStripL pre))
          else none
        | _ => none
    match matched with
    | some panel_name =>
      if pyLen panel_name > 5 then some panel_name
      else if pyLen text > 10 && !text.data.any Char.isDigit then some (pyStrip text)
      else none
    | none =>
      if pyLen text > 10 && !text.data.any Char.isDigit then some (pyStrip text)
      else none

/-- `PDFParser.extract_panels_from_ordered_line`. -/
def extract_panels_from_ordered_line (line : String) : List String :=
  if pyIn ";" line then
    (pySplitChar line ';').foldr
      (fun part acc =>
        match extract_single_panel_from_text (pyStrip part) with
        | some p => p :: acc
        | none => acc)
      []
  else
    match extract_single_panel_from_text line with
    | some p => [p]
    | none => []

/-- The first loop of `extract_ordered_panels`: scan for the "Tests Ordered"
section and collect panels until a section-break line, carrying the
`tests_ordered_section` flag. -/
def orderedSectionLoop (flag : Bool) : List String → List String
  | [] => []
  | l :: ls =>
    let line := pyStrip l
    if pyIn "tests ordered" (pyLower line) || pyIn "test ordered" (pyLower line) then
      orderedSectionLoop true ls
    else if flag then
      if (["patient", "specimen", "physician", "test", "result"].any
            (fun h => pyIn h (pyLower line))) &&
          (!pyIn "test" (pyLower line) || pyIn "result" (pyLower line)) then
        []
      else extract_panels_from_ordered_line line ++ orderedSectionLoop true ls
    else orderedSectionLoop false ls

/-- Order-preserving deduplication (`if panel not in unique_panels`). -/
def dedupKeepOrder (seen : List String) : List String → List String
  | [] => []
  | x :: xs =>
    if seen.contains x then dedupKeepOrder seen xs
    else x :: dedupKeepOrder (x :: seen) xs

/-- The final fallback scan of `extract_ordered_panels` over all lines. -/
def orderedFallbackScan (lines : List String) : List String :=
  lines.foldl
    (fun acc l =>
      let line := pyStrip l
      if !pyTruthy line then acc
      else if is_instructional_text line then acc
      else if pyLen line > 10 && !searchTestResultPattern line &&
          (["panel", "cbc", "count", "metabolic", "lipid", "hepatitis"].any
            (fun k => pyIn k (pyLower line))) then
        -- `re.sub(r'\s+', ' ', line).strip()` collapses whitespace runs and trims,
        -- which is exactly the `' '.join(line.split())` normal form
        let clean_line := pyWSJoin line
        if acc.contains clean_line then acc else acc ++ [clean_line]
      else acc)
    []

/-- `PDFParser.extract_ordered_panels`, as a function of the page text
(`page.extract_text()`; `none` models an absent text). -/
def extract_ordered_panels (page_textO : Option String) : List String :=
  match page_textO with
  | none => []
  | some page_text =>
    if !pyTruthy page_text then []
    else
      let lines := pySplitChar page_text '\n'
      let fromSection := orderedSectionLoop false lines
      let secondPass := lines.foldr
        (fun line acc =>
          if pyIn ";" line && pyIn "(" line && pyIn ")" line then
            extract_panels_from_ordered_line line ++ acc
          else acc)
        []
      let unique := dedupKeepOrder [] (fromSection ++ secondPass)
      if !unique.isEmpty then unique else orderedFallbackScan lines

/-! ## Text Strategy (flowed-text fallback)

The per-line regex of `extract_tests_from_text` is

`^([A-Za-z][A-Za-z\s,\-]+?)\s+([<>]?[\d.]+)(?:\s+([A-Za-z/%\-\(\)]+))?(?:\s+([<>]?[\d.<>-]+(?:\.\d+)?(?:-[<>]?[\d.]+(?:\.\d+)?)?))?$`

embedded as a backtracking parser with the engine's priorities: the lazy
group 1 tries the shortest extension first; the whitespace separators are
deterministic because the neighbouring character classes contain no
whitespace; groups 2 and 3 are maximal because shrinking them leaves a
character their successor cannot match; and the group-4 body accepts exactly
the nonempty strings over `[\d.<>-]` with an optional `<`/`>` prefix (the two
inner optional tails only repeat characters of that class). -/

/-- Character class `[A-Za-z\s,\-]` of group 1. -/
def isNameChar (c : Char) : Bool := c.isAlpha || pyIsSpace c || c = ',' || c = '-'

/-- Character class `[A-Za-z/%\-\(\)]` of group 3 (no dot, unlike `unit_pattern`). -/
def isTextUnitChar (c : Char) : Bool :=
  c.isAlpha || c = '/' || c = '%' || c = '-' || c = '(' || c = ')'

/-- Character class `[\d.<>-]` of group 4. -/
def isRefChar (c : Char) : Bool :=
  c.isDigit || c = '.' || c = '<' || c = '>' || c = '-'

/-- Group 2 `[<>]?[\d.]+`, maximal munch: optional angle bracket then a
nonempty digit/dot run; returns the token and the rest. -/
def parseResultToken (cs : List Char) : Option (List Char × List Char) :=
  match cs with
  | c :: r =>
    if c = '<' || c = '>' then
      let ds := r.takeWhile isDigitDot
      if ds.isEmpty then none else some (c :: ds, r.drop ds.length)
    else
      let ds := (c :: r).takeWhile isDigitDot
      if ds.isEmpty then none else some (ds, (c :: r).drop ds.length)
  | [] => none

/-- The optional reference tail `(?:\s+(group4))?` followed by `$`:
present-first, with `$` also accepting a final newline. -/
def refTailAt (rs : List Char) : Option (Option (List Char)) :=
  let present : Option (List Char) :=
    match rs with
    | d :: r =>
      if pyIsSpace d then
        let r2 := dropFinalNL (r.dropWhile pyIsSpace)
        if !r2.isEmpty && r2.all isRefChar then some r2 else none
      else none
    | [] => none
  match present with
  | some g4 => some (some g4)
  | none => if rs.isEmpty || rs = ['\n'] then some none else none

/-- The optional unit group `(?:\s+(group3))?` then the reference tail:
present-first, group 3 maximal. -/
def unitTailAt (rs : List Char) : Option (Option (List Char) × Option (List Char)) :=
  let presentG3 : Option (Option (List Char) × Option (List Char)) :=
    match rs with
    | d :: r =>
      if pyIsSpace d then
        let r2 := r.dropWhile pyIsSpace
        let g3 := r2.takeWhile isTextUnitChar
        if g3.isEmpty then none
        else
          match refTailAt (r2.drop g3.length) with
          | some g4 => some (some g3, g4)
          | none => none
      else none
    | [] => none
  match presentG3 with
  | some res => some res
  | none => (refTailAt rs).map (fun g4 => (none, g4))

/-- Attempt the remainder of the line pattern after a candidate group-1 split:
`\s+` then group 2 then the optional tails. -/
def afterNameAt (rest : List Char) : Option (List Char × Option (List Char) × Option (List Char)) :=
  match rest with
  | d :: r =>
    if pyIsSpace d then
      let r2 := r.dropWhile pyIsSpace
      match parseResultToken r2 with
      | some (g2, r3) =>
        match unitTailAt r3 with
        | some (g3, g4) => some (g2, g3, g4)
        | none => none
      | none => none
    else none
  | [] => none

/-- Grow the lazy group 1 one character at a time, attempting the rest of the
pattern at each split (shortest-first = the lazy `+?` priority). -/
def growName : List Char → List Char →
    Option (String × String × Option String × Option String)
  | g1rev, [] =>
    match afterNameAt [] with
    | some (g2, g3, g4) =>
      some (String.mk g1rev.reverse, String.mk g2, g3.map String.mk, g4.map String.mk)
    | none => none
  | g1rev, c :: r =>
    match afterNameAt (c :: r) with
    | some (g2, g3, g4) =>
      some (String.mk g1rev.reverse, String.mk g2, g3.map String.mk, g4.map String.mk)
    | none => if isNameChar c then growName (c :: g1rev) r else none

/-- The anchored per-line match of `extract_tests_from_text` (all four groups). -/
def matchTestLine (line : String) : Option (String × String × Option String × Option String) :=
  match line.data with
  | c0 :: c1 :: rest =>
    if c0.isAlpha && isNameChar c1 then growName [c1, c0] rest else none
  | _ => none

/-- Test-record dictionary of the generic text strategy: it has no
`result_text` and no `is_qualitative` key. -/
structure TextRec where
  name : String
  result : String
  unit : String
  reference_range : RefRange
  is_numeric : Bool
  numeric_value : Option PyFloat
  panel_name : Option String := none
  deriving DecidableEq, Repr

/-- `PDFParser.extract_tests_from_text`. -/
def extract_tests_from_text (text : String) (ordered_panels : List String) : List TextRec :=
  (pySplitChar text '\n').foldr
    (fun l acc =>
      let line := pyStrip l
      if !pyTruthy line then acc
      else
        match matchTestLine line with
        | none => acc
        | some (g1, g2, g3, g4) =>
          let name := clean_pagination_text (pyWSJoin (pyStrip g1))
          let result := pyStrip g2
          let unit := clean_pagination_text (match g3 with | some u => pyStrip u | none => "")
          let ref_range_text := match g4 with | some rr => pyStrip rr | none => ""
          if !is_valid_test_name name ||
              (!name.data.isEmpty && (dropFinalNL name.data).all isDigitDot) then
            acc
          else
            let numeric_value := parse_numeric_result result
            let panel_name : Option String :=
              if !ordered_panels.isEmpty then
                let inferred := infer_panel_from_test_name name ordered_panels
                if pyTruthyO inferred then inferred else none
              else none
            { name := name, result := result, unit := unit
            , reference_range := parse_reference_range ref_range_text
            , is_numeric := numeric_value.isSome, numeric_value := numeric_value
            , panel_name := panel_name } :: acc)
    []

/-! ## Vendor (LabCorp) flowed-text grammar -/

/-- Length of the leading whitespace run. -/
def wsRun (cs : List Char) : Nat := (cs.takeWhile pyIsSpace).length

/-- Greedy `\s*`: candidate rests after consuming whitespace, longest consumption
first (regex backtracking priority). -/
def wsStarRests (cs : List Char) : List (List Char) :=
  let m := wsRun cs
  (List.range (m + 1)).map (fun j => cs.drop (m - j))

/-- Greedy `\s+`: candidate rests after consuming at least one whitespace
character, longest consumption first. -/
def wsPlusRests (cs : List Char) : List (List Char) :=
  let m := wsRun cs
  (List.range m).map (fun j => cs.drop (m - j))

/-- Character class `[A-Za-z\s\.,/()]` of the LabCorp name groups. -/
def labNameChar (c : Char) : Bool :=
  c.isAlpha || pyIsSpace c || c = '.' || c = ',' || c = '/' || c = '(' || c = ')'

/-- Exact `\d{2}/\d{2}/\d{4}` at the head of the input; returns the rest. -/
def matchLabDate : List Char → Option (List Char)
  | a :: b :: '/' :: c :: d :: '/' :: e :: f :: g :: h :: rest =>
    if [a, b, c, d, e, f, g, h].all Char.isDigit then some rest else none
  | _ => none

/-- Remainder of `labcorp_pattern` after the lazy name group:
`\s+\d{2}\s+([\d\.]+)\s*([A-Za-z]*)\s+[\d\.\*]*\s+\d{2}/\d{2}/\d{4}\s+([A-Za-z/\d]+)\s+([\d\.\-<>]+)`.
The non-deterministic whitespace splits are enumerated in greedy order; the
`+`/`*` character-class groups are maximal because their successors cannot
match a character of the class. -/
def labFullAfterName (rest : List Char) :
    Option (List Char × List Char × List Char × List Char) :=
  (wsPlusRests rest).findSome? (fun r1 =>
    match r1 with
    | a :: b :: r2 =>
      if a.isDigit && b.isDigit then
        (wsPlusRests r2).findSome? (fun r3 =>
          let ds := r3.takeWhile isDigitDot
          if ds.isEmpty then none
          else
            let r4 := r3.drop ds.length
            (wsStarRests r4).findSome? (fun r5 =>
              let flagL := r5.takeWhile Char.isAlpha
              let r6 := r5.drop flagL.length
              (wsPlusRests r6).findSome? (fun r7 =>
                let star := r7.takeWhile (fun c => isDigitDot c || c = '*')
                let r8 := r7.drop star.length
                (wsPlusRests r8).findSome? (fun r9 =>
                  match matchLabDate r9 with
                  | none => none
                  | some r10 =>
                    (wsPlusRests r10).findSome? (fun r11 =>
                      let unitL := r11.takeWhile (fun c => c.isAlpha || c.isDigit || c = '/')
                      if unitL.isEmpty then none
                      else
                        let r12 := r11.drop unitL.length
                        (wsPlusRests r12).findSome? (fun r13 =>
                          let refL := r13.takeWhile isRefChar
                          if refL.isEmpty then none
                          else some (ds, flagL, unitL, refL)))))))
      else none
    | _ => none)

/-- Remainder of `simple_pattern` after the lazy name group:
`\s+([\d\.]+)\s*([A-Za-z]*)\s` (the trailing `\s` is a single whitespace). -/
def labSimpleAfterName (rest : List Char) : Option (List Char × List Char) :=
  (wsPlusRests rest).findSome? (fun r1 =>
    let ds := r1.takeWhile isDigitDot
    if ds.isEmpty then none
    else
      let r2 := r1.drop ds.length
      (wsStarRests r2).findSome? (fun r3 =>
        let flagL := r3.takeWhile Char.isAlpha
        match r3.drop flagL.length with
        | c :: _ => if pyIsSpace c then some (ds, flagL) else none
        | [] => none))

/-- Grow a lazy `([A-Za-z][A-Za-z\s\.,/()]+?)` name group shortest-first,
attempting the given remainder parser at each split. -/
def growLab {α : Type} (after : List Char → Option α) :
    List Char → List Char → Option (List Char × α)
  | g1rev, rest =>
    match after rest with
    | some a => some (g1rev.reverse, a)
    | none =>
      match rest with
      | c :: r => if labNameChar c then growLab after (c :: g1rev) r else none
      | [] => none

/-- `re.match` of the full `labcorp_pattern`; groups
(name, result, flag, unit, reference). -/
def matchLabFull (line : String) :
    Option (String × String × String × String × String) :=
  match line.data with
  | c0 :: c1 :: rest =>
    if c0.isAlpha && labNameChar c1 then
      (growLab labFullAfterName [c1, c0] rest).map
        (fun p => (String.mk p.1, String.mk p.2.1, String.mk p.2.2.1,
          String.mk p.2.2.2.1, String.mk p.2.2.2.2))
    else none
  | _ => none

/-- `re.match` of the `simple_pattern`; groups (name, result, flag). -/
def matchLabSimple (line : String) : Option (String × String × String) :=
  match line.data with
  | c0 :: c1 :: rest =>
    if c0.isAlpha && labNameChar c1 then
      (growLab labSimpleAfterName [c1, c0] rest).map
        (fun p => (String.mk p.1, String.mk p.2.1, String.mk p.2.2))
    else none
  | _ => none

/-- Test-record dictionary of the LabCorp path: `result` holds the parsed float
(or None), `result_text` always holds the raw digit string, and there is no
`numeric_value`, `is_numeric` or `is_qualitative` key.  `panel_name` is set by
`extract_labcorp_tests`. -/
structure LabRec where
  name : String
  result : Option PyFloat
  result_text : String
  unit : String
  flag : Option String
  ref_low : Option PyFloat
  ref_high : Option PyFloat
  ref_type : String
  ref_value : Option PyFloat
  reference_range : RefMap
  panel_name : Option String := none
  deriving DecidableEq, Repr

/-- `PDFParser.parse_labcorp_test_line`. -/
def parse_labcorp_test_line (line : String) : Option LabRec :=
  if pyLen (pyStrip line) < 3 then none
  else if !is_valid_test_name line then none
  else
    match matchLabFull line with
    | some (g1, g2, g3, g4, g5) =>
      let test_name := pyStrip g1
      if !is_valid_test_name test_name then none
      else
        let numeric_result := pyFloat? g2
        let ref_data := parse_reference_range g5
        let rmap0 : RefMap := ⟨ref_data.low, ref_data.high, some g5⟩
        let rmap := apply_reference_range_mappings test_name rmap0
        some { name := test_name, result := numeric_result, result_text := g2
             , unit := g4
             , flag := if pyTruthy g3 then some g3 else none
             , ref_low := rmap.low, ref_high := rmap.high
             -- `ref_data.get('type', 'range')` / `ref_data.get('value')`:
             -- `parse_reference_range` never emits those keys
             , ref_type := "range", ref_value := none
             , reference_range := rmap }
    | none =>
      match matchLabSimple line with
      | some (g1, g2, g3) =>
        let test_name := pyStrip g1
        if !is_valid_test_name test_name then none
        else
          let numeric_result := pyFloat? g2
          let unit := apply_unit_mappings test_name (if pyTruthy g3 then g3 else "")
          let rmap := apply_reference_range_mappings test_name ⟨none, none, none⟩
          some { name := test_name, result := numeric_result, result_text := g2
               , unit := unit
               , flag := if pyTruthy g3 then some g3 else none
               , ref_low := rmap.low, ref_high := rmap.high
               , ref_type := "range", ref_value := none
               , reference_range := rmap }
      | none => none

/-- Panel dictionary of `extract_labcorp_panels` (`{'name': ..., 'tests': []}`;
the `tests` list is always left empty by the source). -/
structure LabPanel where
  name : String
  tests : List String
  deriving DecidableEq, Repr

/-- Whether the line ends in `\(\d+\)$`. -/
def endsWithParenCode (cs : List Char) : Bool :=
  match cs.reverse with
  | ')' :: rest =>
    let ds := rest.takeWhile Char.isDigit
    !ds.isEmpty && (match rest.drop ds.length with | '(' :: _ => true | _ => false)
  | _ => false

/-- Python `str.endswith` on strings. -/
def pyEndsWith (s suffix : String) : Bool := isPrefL suffix.data.reverse s.data.reverse

/-- The five standalone panel-header patterns of `extract_labcorp_panels`
(all case-insensitive, fully anchored); every branch takes the whole stripped
line as the panel name, so only the Boolean test matters. -/
def labPanelsLineTest (line : String) : Bool :=
  let ll := pyLower line
  -- `^(Comp\. Metabolic Panel.*\(\d+\))$`
  (pyStartsWith ll "comp. metabolic panel" && endsWithParenCode line.data) ||
  -- `^(Lipid Panel)$`
  (ll = "lipid panel") ||
  -- `^(CBC.*Panel.*)$`
  (pyStartsWith ll "cbc" && containsL "panel".data (ll.data.drop 3)) ||
  -- `^([A-Za-z\s]+Panel)$` with the redundant `'panel' in line.lower()`
  (pyLen line ≥ 6 && line.data.all (fun c => c.isAlpha || pyIsSpace c) &&
    pyEndsWith ll "panel" && pyIn "panel" ll) ||
  -- `^(Apolipoprotein [A-Z])$`
  (pyLen line = 16 && pyStartsWith ll "apolipoprotein " &&
    (match line.data.getLast? with | some c => c.isAlpha | none => false))

/-- `PDFParser.extract_labcorp_panels`. -/
def extract_labcorp_panels (text : String) : List LabPanel :=
  ((pySplitChar text '\n').foldl
    (fun (st : List String × List LabPanel) l =>
      let line := pyStrip l
      if !pyTruthy line || pyLen line < 5 then st
      else if is_instructional_text line then st
      else if !labPanelsLineTest line then st
      else
        -- `re.sub(r'\s+', ' ', panel_name)` on the already-stripped line is
        -- whitespace-run collapsing, i.e. the `' '.join(split())` normal form
        let panel_name := pyWSJoin line
        if pyTruthy panel_name && !st.1.contains panel_name && pyLen panel_name > 3 &&
            !(["high", "low", "mg/dl", "ordered items"].any
              (fun inv => pyIn inv (pyLower panel_name))) then
          (panel_name :: st.1, st.2 ++ [⟨panel_name, []⟩])
        else st)
    ([], [])).2

/-- Whether characters 1..k-1 of the line are all in the LabCorp name class
(character 0 is checked separately as `[A-Za-z]`). -/
def labPrefixClass (cs : List Char) (k : Nat) : Bool :=
  ((cs.take k).drop 1).all labNameChar

/-- The `panel_header_patterns` of `extract_labcorp_tests`, tried in order;
returns `group(1)`.  For the two generic patterns the greedy `+` takes the
largest split at which the literal (`Panel` resp. `\(\d+\)`) still follows,
and the trailing `[^:\n]*` extends the group to the first colon. -/
def labPanelHeaderMatch (line : String) : Option String :=
  let cs := line.data
  let ll := pyLower line
  let untilColon : List Char → List Char := fun l =>
    l.takeWhile (fun c => c ≠ ':' && c ≠ '\n')
  -- `^(Comp\. Metabolic Panel[^:\n]*)`
  if pyStartsWith ll "comp. metabolic panel" then some (String.mk (untilColon cs))
  -- `^(Lipid Panel[^:\n]*)`
  else if pyStartsWith ll "lipid panel" then some (String.mk (untilColon cs))
  else
    let headAlpha := match cs with | c :: _ => c.isAlpha | [] => false
    -- `^([A-Za-z][A-Za-z\s\.,/()]+Panel[^:\n]*)`
    let p3 : Option String :=
      if headAlpha then
        ((List.range cs.length).reverse).findSome? (fun k =>
          if 1 ≤ k && labPrefixClass cs k &&
              isPrefL "panel".data (ll.data.drop k) then
            some (String.mk (cs.take (k + 5) ++ untilColon (cs.drop (k + 5))))
          else none)
      else none
    match p3 with
    | some g => some g
    | none =>
      -- `^([A-Za-z][A-Za-z\s\.,/()]+\(\d+\))`
      if headAlpha then
        ((List.range cs.length).reverse).findSome? (fun k =>
          if 1 ≤ k && labPrefixClass cs k then
            match cs.drop k with
            | '(' :: r =>
              let ds := r.takeWhile Char.isDigit
              if !ds.isEmpty && (match r.drop ds.length with | ')' :: _ => true | _ => false)
              then some (String.mk (cs.take k ++ '(' :: (ds ++ [')'])))
              else none
            | _ => none
          else none)
      else none

/-- `PDFParser.extract_labcorp_tests`. -/
def extract_labcorp_tests (text : String) : List LabRec :=
  ((pySplitChar text '\n').foldl
    (fun (st : Option String × List LabRec) l =>
      let line := pyStrip l
      if !pyTruthy line then st
      else
        match labPanelHeaderMatch line with
        | some g => (some (pyWSJoin (pyStrip g)), st.2)
        | none =>
          if ["test", "current result", "reference interval", "units"].any
              (fun h => pyIn h (pyLower line)) then st
          else
            match parse_labcorp_test_line line with
            | some t =>
              let pn := if pyTruthyO st.1 then st.1.getD "" else "Unknown Panel"
              (st.1, st.2 ++ [{ t with panel_name := some pn }])
            | none => st)
    (none, [])).2

/-! ## Metadata extractors

`dateutil.parser.parse` is an external library ("treated as given" at the Raw
Extraction Adapter boundary); it is modelled by the environment function
`Env.dateutilParse`, which returns the ISO `YYYY-MM-DD` rendering of the
matched date string, or `none` where the library would raise. -/

structure Env where
  dateutilParse : String → Option String

/-- Character class `\w`. -/
def isWordChar (c : Char) : Bool := c.isAlpha || c.isDigit || c = '_'

/-- Greedy `\d{1,2}`: the two-digit reading first, then the one-digit reading. -/
def digits12 (cs : List Char) : List (List Char × List Char) :=
  (match cs with
   | a :: b :: r => if a.isDigit && b.isDigit then [([a, b], r)] else []
   | _ => []) ++
  (match cs with
   | a :: r => if a.isDigit then [([a], r)] else []
   | _ => [])

/-- `\d{1,2}/\d{1,2}/\d{4}` at the head of the input; returns the matched text. -/
def matchSlashDateAt (cs : List Char) : Option (List Char) :=
  (digits12 cs).findSome? (fun p1 =>
    match p1.2 with
    | '/' :: r2 =>
      (digits12 r2).findSome? (fun p2 =>
        match p2.2 with
        | '/' :: a :: b :: c :: d :: _ =>
          if [a, b, c, d].all Char.isDigit then
            some (p1.1 ++ '/' :: p2.1 ++ '/' :: [a, b, c, d])
          else none
        | _ => none)
    | _ => none)

/-- `\d{4}-\d{2}-\d{2}` at the head of the input. -/
def matchIsoDateAt : List Char → Option (List Char)
  | a :: b :: c :: d :: '-' :: e :: f :: '-' :: g :: h :: _ =>
    if [a, b, c, d, e, f, g, h].all Char.isDigit then
      some [a, b, c, d, '-', e, f, '-', g, h]
    else none
  | _ => none

/-- `\w+\s+\d{1,2},?\s+\d{4}` at the head of the input (`\w+` and the `\s+`
runs are maximal because their successors are class-disjoint; the `,?` is
forced). -/
def matchWordDateAt (cs : List Char) : Option (List Char) :=
  let w := cs.takeWhile isWordChar
  if w.isEmpty then none
  else
    let r1 := cs.drop w.length
    let m1 := wsRun r1
    if m1 = 0 then none
    else
      let r2 := r1.drop m1
      (digits12 r2).findSome? (fun p =>
        let comma : List Char × List Char :=
          match p.2 with
          | ',' :: r => ([','], r)
          | r => ([], r)
        let m2 := wsRun comma.2
        if m2 = 0 then none
        else
          match comma.2.drop m2 with
          | a :: b :: c :: d :: _ =>
            if [a, b, c, d].all Char.isDigit then
              some (w ++ r1.take m1 ++ p.1 ++ comma.1 ++ comma.2.take m2 ++ [a, b, c, d])
            else none
          | _ => none)

/-- `\d{1,2}-\w{3}-\d{4}` at the head of the input. -/
def matchDMYDateAt (cs : List Char) : Option (List Char) :=
  (digits12 cs).findSome? (fun p =>
    match p.2 with
    | '-' :: a :: b :: c :: '-' :: e :: f :: g :: h :: _ =>
      if [a, b, c].all isWordChar && [e, f, g, h].all Char.isDigit then
        some (p.1 ++ '-' :: [a, b, c] ++ '-' :: [e, f, g, h])
      else none
    | _ => none)

/-- `re.search`: try the position matcher at every index, leftmost first. -/
def searchPos (f : List Char → Option (List Char)) : List Char → Option (List Char)
  | [] => f []
  | c :: cs =>
    match f (c :: cs) with
    | some g => some g
    | none => searchPos f cs

/-- `PDFParser.extract_date_from_text`.  The source calls
`pattern.search(text, re.IGNORECASE | re.DOTALL)`: the flag value (18) lands in
the `pos` parameter of the compiled-pattern `search`, so every pattern is
searched starting at character index 18. -/
def extract_date_from_text (env : Env) (text : String) : Option String :=
  let cs := text.data.drop 18
  let tryPat : (List Char → Option (List Char)) → Option String := fun f =>
    match searchPos f cs with
    | some g => env.dateutilParse (String.mk g)
    | none => none
  match tryPat matchSlashDateAt with
  | some r => some r
  | none =>
    match tryPat matchIsoDateAt with
    | some r => some r
    | none =>
      match tryPat matchWordDateAt with
      | some r => some r
      | none => tryPat matchDMYDateAt

/-- `Date Collected:\s*(\d{1,2}/\d{1,2}/\d{4})` at the head of the input
(case-insensitive), returning the date group. -/
def collectedDateAt (cs : List Char) : Option (List Char) :=
  if isPrefL "date collected:".data (cs.map lowC) then
    matchSlashDateAt ((cs.drop 15).dropWhile pyIsSpace)
  else none

/-- `PDFParser.extract_labcorp_collection_date` (the `strftime('%Y-%m-%d')`
rendering is part of `Env.dateutilParse`). -/
def extract_labcorp_collection_date (env : Env) (text : String) : Option String :=
  match searchPos collectedDateAt text.data with
  | some g => env.dateutilParse (String.mk g)
  | none => none

/-- The starred name tail `(?:\s+[A-Z][a-z]*)*` (case-insensitive): greedily
append whitespace-then-letters units; fuel is the input length. -/
def physUnits (fuel : Nat) (acc rest : List Char) : List Char × List Char :=
  match fuel with
  | 0 => (acc, rest)
  | fuel + 1 =>
    let m := wsRun rest
    if m = 0 then (acc, rest)
    else
      let r2 := rest.drop m
      let w2 := r2.takeWhile Char.isAlpha
      if w2.isEmpty then (acc, rest)
      else physUnits fuel (acc ++ rest.take m ++ w2) (r2.drop w2.length)

/-- The captured name `([A-Z][a-z]+(?:\s+[A-Z][a-z]*)*)` under `IGNORECASE`:
at least two leading letters, then greedy units. -/
def physNameGroupAt (cs : List Char) : Option (List Char) :=
  let w := cs.takeWhile Char.isAlpha
  if w.length < 2 then none
  else some (physUnits cs.length w (cs.drop w.length)).1

/-- First physician pattern
`(?:physician|doctor|dr\.?|md)\s*:?\s*([A-Z][a-z]+(?:\s+[A-Z][a-z]*)*)` at one
position (case-insensitive; alternatives in regex order, `dr\.?` greedy). -/
def physPat1At (cs : List Char) : Option (List Char) :=
  let low := cs.map lowC
  ["physician", "doctor", "dr.", "dr", "md"].findSome? (fun kw =>
    if isPrefL kw.data low then
      let r2 := (cs.drop kw.length).dropWhile pyIsSpace
      let r3 := match r2 with | ':' :: r => r | _ => r2
      physNameGroupAt (r3.dropWhile pyIsSpace)
    else none)

/-- Second physician pattern `([A-Z][a-z]+\s+[A-Z][a-z]+),?\s*(?:MD|M\.D\.)` at
one position: the second word is greedy and backtracks until the `MD` suffix
fits. -/
def physPat2At (cs : List Char) : Option (List Char) :=
  let w1 := cs.takeWhile Char.isAlpha
  if w1.length < 2 then none
  else
    let r1 := cs.drop w1.length
    let m := wsRun r1
    if m = 0 then none
    else
      let r2 := r1.drop m
      let w2max := (r2.takeWhile Char.isAlpha).length
      if w2max < 2 then none
      else
        ((List.range (w2max - 1)).map (fun j => w2max - j)).findSome? (fun L =>
          let r3 := r2.drop L
          let r4 := match r3 with | ',' :: rr => rr | _ => r3
          let low := (r4.dropWhile pyIsSpace).map lowC
          if isPrefL "md".data low || isPrefL "m.d.".data low then
            some (w1 ++ r1.take m ++ r2.take L)
          else none)

/-- Third physician pattern `Dr\.?\s+([A-Z][a-z]+(?:\s+[A-Z][a-z]*)*)` at one
position (case-insensitive). -/
def physPat3At (cs : List Char) : Option (List Char) :=
  if isPrefL "dr".data (cs.map lowC) then
    let r := cs.drop 2
    let cand1 : Option (List Char) :=
      match r with
      | '.' :: rr =>
        let m := wsRun rr
        if m ≥ 1 then physNameGroupAt (rr.drop m) else none
      | _ => none
    match cand1 with
    | some g => some g
    | none =>
      let m := wsRun r
      if m ≥ 1 then physNameGroupAt (r.drop m) else none
  else none

/-- `re.sub(r'\s+LIT.*$', '', s, count)`: truncate at the leftmost whitespace
run directly followed by the (case-sensitive) literal.  The third positional
argument of the source's `re.sub` calls is `re.IGNORECASE` used as a *count*,
so the literals stay case-sensitive; a count ≥ 1 does not matter because the
`.*$` tail consumes the remainder, allowing a single replacement. -/
def truncWsLit (lit : List Char) : List Char → List Char
  | [] => []
  | c :: cs =>
    if pyIsSpace c && isPrefL lit ((c :: cs).dropWhile pyIsSpace) then []
    else c :: truncWsLit lit cs

/-- One match of `\s+Dr\.?\s*` (case-sensitive) at the head of the input;
returns the rest after the removed span. -/
def drMatchAt (cs : List Char) : Option (List Char) :=
  let m := wsRun cs
  if m = 0 then none
  else
    match cs.drop m with
    | 'D' :: 'r' :: r =>
      let r2 := match r with | '.' :: rr => rr | _ => r
      some (r2.dropWhile pyIsSpace)
    | _ => none

/-- `re.sub(r'\s+Dr\.?\s*', '', s, 2)`: remove up to `count` leftmost
non-overlapping matches. -/
def subDr (fuel count : Nat) : List Char → List Char
  | [] => []
  | c :: cs =>
    match fuel, count with
    | 0, _ => c :: cs
    | _, 0 => c :: cs
    | fuel + 1, count + 1 =>
      match drMatchAt (c :: cs) with
      | some rest => subDr fuel count rest
      | none => c :: subDr fuel (count + 1) cs

/-- `re.sub(r'^Dr\.?\s+', '', s, 2)`: anchored, so at most one removal. -/
def subCaretDr (cs : List Char) : List Char :=
  match cs with
  | 'D' :: 'r' :: r =>
    let afterDot := match r with | '.' :: rr => rr | _ => r
    let m := wsRun afterDot
    if m ≥ 1 then afterDot.drop m else cs
  | _ => cs

/-- The clean-up chain applied to a matched physician group. -/
def physicianCleanup (g : List Char) : String :=
  let p1 := truncWsLit "NPI".data g
  let p2 := truncWsLit "MD".data p1
  let p3 := truncWsLit "DO".data p2
  let p4 := subDr (p3.length + 1) 2 p3
  String.mk (subCaretDr p4)

/-- The `skip_values` list of `extract_physician_from_text`. -/
def physicianSkipValues : List String :=
  ["physician", "provider", "doctor", "npi #", "physician id", "npi # physician id"]

/-- `PDFParser.extract_physician_from_text`: the three patterns are searched in
order; for each, only the first (leftmost) match is considered. -/
def extract_physician_from_text (text : String) : Option String :=
  let tryPat : (List Char → Option (List Char)) → Option String := fun f =>
    match searchPos f text.data with
    | some g =>
      let physician := physicianCleanup g
      if pyLen physician > 2 && !physicianSkipValues.contains (pyLower physician) then
        some physician
      else none
    | none => none
  match tryPat physPat1At with
  | some r => some r
  | none =>
    match tryPat physPat2At with
    | some r => some r
    | none => tryPat physPat3At

/-- `Ordering Physician:\s*([A-Z\s]+?)(?:\n|$)` matching at one position: the
greedy `\s*` prefix is enumerated longest-first, and the lazy group stops at
the first newline/end once nonempty. -/
def provGo (acc : List Char) : List Char → Option (List Char)
  | [] => if acc.isEmpty then none else some acc.reverse
  | c :: r =>
    if !acc.isEmpty && c = '\n' then some acc.reverse
    else if c.isAlpha || pyIsSpace c then provGo (c :: acc) r
    else none

/-- The ordering-physician pattern at one position (case-insensitive). -/
def orderingPhysAt (cs : List Char) : Option (List Char) :=
  if isPrefL "ordering physician:".data (cs.map lowC) then
    (wsStarRests (cs.drop 19)).findSome? (fun rr => provGo [] rr)
  else none

/-- `PDFParser.extract_labcorp_provider`. -/
def extract_labcorp_provider (text : String) : Option String :=
  match searchPos orderingPhysAt text.data with
  | some g =>
    let provider_name := pyStrip (String.mk g)
    if pyTruthy provider_name && pyLen provider_name > 1 then some provider_name
    else none
  | none => none

/-! ## Document Assembler

The raw-extraction adapter (pypdf / pdfplumber) is the leaf dependency; an
input byte buffer is modelled extensionally by what the two readers would
produce from it: `pypdfPages = none` / `plumberPages = none` model the reader
raising (`PdfReadError` resp. a pdfplumber open failure) on that buffer. -/

/-- A pdfplumber page: its extracted tables (cells are strings, a Python
`None` cell is `""` — the two are interchangeable in every use site) and its
extracted text. -/
structure PageM where
  tables : List (List (List String))
  text : Option String
  deriving Repr

/-- An input byte buffer, described by the behaviour of the two readers on it. -/
structure PdfBytesM where
  isEmptyBuf : Bool
  pypdfPages : Option (List String)
  plumberPages : Option (List PageM)
  deriving Repr

/-- `PDFParser.extract_text_from_pdf`: concatenates page texts with newlines;
any reader exception is swallowed and yields `""`. -/
def extract_text_from_pdf (c : PdfBytesM) : String :=
  match c.pypdfPages with
  | some pages => String.join (pages.map (fun p => p ++ "\n"))
  | none => ""

/-- A test dictionary from any of the three extraction paths. -/
inductive AnyRec where
  | row (r : RowRec)
  | text (t : TextRec)
  | lab (l : LabRec)
  deriving DecidableEq, Repr

/-- The result dictionary of the parsing entry points; `ordered_panels` is a
key only the pdfplumber-strategy dictionary carries. -/
structure ParsedDocM where
  date_collected : Option String
  physician : Option String
  tests : List AnyRec
  ordered_panels : Option (List String)
  panels : List LabPanel
  errors : List String
  deriving Repr

/-- `PDFParser.parse_with_pdfplumber`: `none` models the `except` branch
(pdfplumber failed to open the buffer; all other statements are total). -/
def parse_with_pdfplumber (env : Env) (c : PdfBytesM) : Option ParsedDocM :=
  let pypdf_text := extract_text_from_pdf c
  let date_collected := extract_date_from_text env pypdf_text
  let physician := extract_physician_from_text pypdf_text
  match c.plumberPages with
  | none => none
  | some pages =>
    let ordered_panels :=
      match pages with
      | [] => []
      | p :: _ => extract_ordered_panels p.text
    let all_tests := pages.foldr
      (fun page acc =>
        (if !page.tables.isEmpty then
          page.tables.foldr
            (fun tbl acc2 =>
              (process_table_with_ordered_panels tbl ordered_panels).map AnyRec.row ++ acc2)
            []
        else
          match page.text with
          | some ptext =>
            if pyTruthy ptext then (extract_tests_from_text ptext ordered_panels).map AnyRec.text
            else []
          | none => []) ++ acc)
      []
    some { date_collected := date_collected, physician := physician
         , tests := all_tests, ordered_panels := some ordered_panels
         , panels := [], errors := [] }

/-- `PDFParser.parse_official_labcorp_report`. -/
def parse_official_labcorp_report (env : Env) (text : String) : ParsedDocM :=
  { date_collected := extract_labcorp_collection_date env text
  , physician := extract_labcorp_provider text
  , tests := (extract_labcorp_tests text).map AnyRec.lab
  , ordered_panels := none
  , panels := extract_labcorp_panels text
  , errors := [] }

/-- `PDFParser.parse_labcorp_report`. -/
def parse_labcorp_report (env : Env) (text : String) : ParsedDocM :=
  let markers := ["Patient Report", "Date Collected:", "Date Received:",
    "Ordering Physician:", "Reference Interval"]
  if markers.any (fun m => pyIn m text) then parse_official_labcorp_report env text
  else
    { date_collected := extract_date_from_text env text
    , physician := extract_physician_from_text text
    , tests := (extract_tests_from_text text []).map AnyRec.text
    , ordered_panels := none, panels := [], errors := [] }

/-- The two exception kinds `parse_pdf_content` can surface. -/
inductive ParseExc where
  | pdfReadError (msg : String)
  | valueError (msg : String)
  deriving DecidableEq, Repr

/-- The state of a `PDFParser` instance: `__init__` compiles these pattern
constants onto `self`, and no method ever assigns an attribute afterwards. -/
structure PDFParserState where
  numeric_pattern : String
  unit_pattern : String
  range_pattern : String
  code_pattern : String
  test_result_pattern : String
  date_pattern_count : Nat
  physician_pattern_count : Nat
  deriving DecidableEq, Repr

/-- `PDFParser.__init__`. -/
def PDFParser_init : PDFParserState :=
  { numeric_pattern := "^[<>]?[\\d.]+$"
  , unit_pattern := "^[A-Za-z/%\\-\\(\\).]+$"
  , range_pattern := "-|>|<"
  , code_pattern := "([^;()]\x7b5,\x7d)\\s*\\([0-9]+\\)"
  , test_result_pattern := "\\d+\\.?\\d*\\s*(mg/dL|mmol/L|g/dL|%|x10E\\d|uIU/mL)"
  , date_pattern_count := 4
  , physician_pattern_count := 3 }

/-- `PDFParser.parse_pdf_content` with the instance state threaded explicitly:
the method reads the compiled patterns but never writes `self`, so the state
comes back unchanged. -/
def parse_pdf_content (st : PDFParserState) (env : Env) (content : PdfBytesM) :
    Except ParseExc ParsedDocM × PDFParserState :=
  let res : Except ParseExc ParsedDocM :=
    if content.isEmptyBuf then
      Except.error (ParseExc.valueError "PDF content is empty")
    else
      let afterPlumber : Except ParseExc ParsedDocM :=
        let text := extract_text_from_pdf content
        if !pyTruthy text || pyLen (pyStrip text) < 50 then
          Except.error (ParseExc.valueError
            "PDF appears to be empty or contains no readable text")
        else
          let result := parse_labcorp_report env text
          if result.tests.isEmpty && pyFalsyO result.date_collected then
            Except.error (ParseExc.valueError
              "No lab results or date found - this may not be a compatible lab report")
          else Except.ok result
      let body : Except ParseExc ParsedDocM :=
        match parse_with_pdfplumber env content with
        | some result => if !result.tests.isEmpty then Except.ok result else afterPlumber
        | none => afterPlumber
      match body with
      | Except.ok r => Except.ok r
      | Except.error (ParseExc.pdfReadError m) =>
        Except.error (ParseExc.pdfReadError ("Cannot read PDF file: " ++ m))
      | Except.error (ParseExc.valueError m) =>
        Except.error (ParseExc.valueError ("PDF parsing failed: " ++ m))
  (res, st)

/-! ## Specification-side definitions

These definitions are written from the specification's words (not from the
source); the refinement theorems compare them with the embedded code. -/

/-- The best-match fold state machine underlying `infer_panel_from_test_name`:
walk candidate (panel, hit-count) pairs, replacing the best on a strictly
greater count. -/
def selectLoop : Option String → Nat → List (String × Nat) → Option String × Nat
  | b, bc, [] => (b, bc)
  | b, bc, p :: t => if bc < p.2 then selectLoop (some p.1) p.2 t else selectLoop b bc t

/-- Maximum hit count of a candidate list. -/
def maxCnt (l : List (String × Nat)) : Nat := l.foldr (fun p m => max p.2 m) 0

/-- All (ordered-panel, keyword-hit-count) candidate pairs in the iteration
order of the nested loops: panel types (with at least one keyword hit) outer,
ordered panels passing the type discriminator inner. -/
def inferPairsAux (tnl : String) (ordered_panels : List String) :
    List (String × List String) → List (String × Nat)
  | [] => []
  | tp :: tps =>
    (if keywordHits tp.2 tnl > 0 then
      (ordered_panels.filter (fun op => panelTypeMatch tp.1 (pyLower op))).map
        (fun op => (op, keywordHits tp.2 tnl))
    else []) ++ inferPairsAux tnl ordered_panels tps

/-- Candidate pairs over the full pattern table. -/
def inferPairs (tnl : String) (ordered_panels : List String) : List (String × Nat) :=
  inferPairsAux tnl ordered_panels panelTestPatterns

/-- Written from the spec's words: among all matching type/panel pairs return
the one with the highest keyword-hit count, keeping the first found on ties,
and none when nothing matches. -/
def specBestPanel (test_name : String) (ordered_panels : List String) : Option String :=
  let tnl := pyStrip (pyReplace (pyReplace (pyLower test_name) "\n" " ") "  " " ")
  let pairs := inferPairs tnl ordered_panels
  if 0 < maxCnt pairs then (pairs.find? (fun p => p.2 == maxCnt pairs)).map Prod.fst
  else none

/-- Dictionary lookup `test.get('numeric_value')` on a LabCorp record: the key
is never set by `parse_labcorp_test_line`. -/
def labRecNumericValueGet (_ : LabRec) : Option PyFloat := none

/-- Dictionary lookup `test.get('is_qualitative', False)` on a LabCorp record:
the key is never set by `parse_labcorp_test_line`. -/
def labRecIsQualitativeGet (_ : LabRec) : Bool := false

/-- Dictionary lookup `test.get('result_text')` on a LabCorp record: the key
is always present. -/
def labRecResultTextGet (r : LabRec) : Option String := some r.result_text

/-- Dictionary lookup `test.get('result_text')` on a generic-text record: the
key is never set by `extract_tests_from_text`. -/
def textRecResultTextGet (_ : TextRec) : Option String := none

/-- Dictionary lookup `test.get('is_qualitative', False)` on a generic-text
record: the key is never set by `extract_tests_from_text`. -/
def textRecIsQualitativeGet (_ : TextRec) : Bool := false

/-- A structurally corrupt PDF container: the byte buffer is nonempty but both
underlying readers fail on it (pypdf raises `PdfReadError`, pdfplumber fails
to open). -/
def corruptPdf (c : PdfBytesM) : Prop :=
  c.isEmptyBuf = false ∧ c.pypdfPages = none ∧ c.plumberPages = none

/-- The claim's reading of `parse_numeric_result`: strip one *leading* `<` or
`>` and parse the remainder as a float. -/
def claimLeadingStripNumeric (result : String) : Option PyFloat :=
  match result.data with
  | '<' :: r => pyFloat? (String.mk r)
  | '>' :: r => pyFloat? (String.mk r)
  | _ => pyFloat? result

/-- The result-token shape of the generic text strategy, as the spec reads it:
an optional leading `<` or `>` followed by a nonempty run of digits and dots
(`[<>]?[\d.]+` anchored to the whole string). -/
def resultTokenShape (s : String) : Bool :=
  match s.data with
  | c :: rest =>
    if c = '<' || c = '>' then !rest.isEmpty && rest.all isDigitDot
    else (c :: rest).all isDigitDot
  | [] => false

/-- The record the generic text strategy extracts from the line
`"Glucose 87"`. -/
def glucose87Rec : TextRec :=
  { name := "Glucose", result := "87", unit := "", reference_range := ⟨none, none, ""⟩
  , is_numeric := true, numeric_value := some (PyFloat.fin 87), panel_name := none }

/-- The record invariant claimed for extracted test dictionaries: at most one
of `numeric_value`/`result_text` is populated, and the two booleans are
derived from which one is set. -/
def rowRecDerived (r : RowRec) : Prop :=
  (r.numeric_value = none ∨ r.result_text = none) ∧
  r.is_numeric = r.numeric_value.isSome ∧
  r.is_qualitative = r.result_text.isSome

/-! ## Theorems -/

/-- A falsy Python string is the empty string. -/
theorem pyTruthy_eq_false {s : String} (h : pyTruthy s = false) : s = "" := by
  cases s with
  | mk data =>
    cases data with
    | nil => rfl
    | cons c cs =>
      unfold pyTruthy at h
      simp [List.isEmpty] at h


/-- Folding `selectLoop` over an appended list runs the two halves in
sequence. -/
theorem selectLoop_append (l1 l2 : List (String × Nat)) : ∀ (b : Option String) (bc : Nat),
    selectLoop b bc (l1 ++ l2) = selectLoop (selectLoop b bc l1).1 (selectLoop b bc l1).2 l2 := by
  induction l1 with
  | nil => intro b bc; rfl
  | cons p t ih =>
    intro b bc
    simp only [List.cons_append, selectLoop]
    split <;> apply ih

/-- The strict-improvement fold returns the first candidate attaining the
maximum count when that maximum beats the seed, and the seed otherwise. -/
theorem selectLoop_eq (l : List (String × Nat)) : ∀ (b : Option String) (bc : Nat),
    selectLoop b bc l =
      if bc < maxCnt l then ((l.find? (fun p => p.2 == maxCnt l)).map Prod.fst, maxCnt l)
      else (b, bc) := by
  induction l with
  | nil =>
    intro b bc
    simp [selectLoop, maxCnt]
  | cons p t ih =>
    intro b bc
    have hmax : maxCnt (p :: t) = max p.2 (maxCnt t) := rfl
    rcases le_or_lt (maxCnt t) p.2 with hm | hm
    · rw [hmax, max_eq_left hm]
      by_cases h1 : bc < p.2
      · rw [if_pos h1]
        show selectLoop b bc (p :: t) = _
        rw [selectLoop, if_pos h1, ih, if_neg (by omega),
          List.find?_cons_of_pos _ (by simp)]
        rfl
      · rw [if_neg h1]
        show selectLoop b bc (p :: t) = _
        rw [selectLoop, if_neg h1, ih, if_neg (by omega)]
    · rw [hmax, max_eq_right (le_of_lt hm)]
      by_cases h1 : bc < p.2
      · rw [if_pos (by omega)]
        show selectLoop b bc (p :: t) = _
        rw [selectLoop, if_pos h1, ih, if_pos hm,
          List.find?_cons_of_neg _ (by simp; omega)]
      · show selectLoop b bc (p :: t) = _
        rw [selectLoop, if_neg h1, ih]
        by_cases h2 : bc < maxCnt t
        · rw [if_pos h2, if_pos h2, List.find?_cons_of_neg _ (by simp; omega)]
        · rw [if_neg h2, if_neg h2]

/-- The inner per-panel loop of `infer_panel_from_test_name` is `selectLoop`
over the type-matching panels, each paired with the type's hit count. -/
theorem innerFold_eq (ptype : String) (hits : Nat) (panels : List String) :
    ∀ st : Option String × Nat,
      panels.foldl
          (fun st2 op =>
            if panelTypeMatch ptype (pyLower op) && hits > st2.2 then (some op, hits) else st2)
          st =
        selectLoop st.1 st.2
          ((panels.filter (fun op => panelTypeMatch ptype (pyLower op))).map
            (fun op => (op, hits))) := by
  induction panels with
  | nil => intro st; rfl
  | cons op t ih =>
    intro st
    simp only [List.foldl_cons, List.filter_cons]
    by_cases hmatch : panelTypeMatch ptype (pyLower op)
    · rw [if_pos hmatch]
      simp only [List.map_cons, selectLoop, hmatch, Bool.true_and]
      by_cases hgt : st.2 < hits
      · rw [if_pos hgt, if_pos (by simpa using hgt)]
        exact ih (some op, hits)
      · rw [if_neg hgt, if_neg (by simpa using hgt)]
        exact ih st
    · rw [if_neg hmatch]
      have hcond : (panelTypeMatch ptype (pyLower op) && hits > st.2) = false := by
        simp [hmatch]
      rw [hcond]
      simp only [Bool.false_eq_true, if_false]
      exact ih st

/-- The outer per-type loop of `infer_panel_from_test_name` is `selectLoop`
over the flattened candidate pairs. -/
theorem outerFold_eq (tnl : String) (panels : List String) :
    ∀ (tps : List (String × List String)) (st : Option String × Nat),
      tps.foldl
          (fun st tp =>
            let hits := keywordHits tp.2 tnl
            if hits > 0 then
              panels.foldl
                (fun st2 op =>
                  if panelTypeMatch tp.1 (pyLower op) && hits > st2.2 then (some op, hits)
                  else st2)
                st
            else st)
          st =
        selectLoop st.1 st.2 (inferPairsAux tnl panels tps) := by
  intro tps
  induction tps with
  | nil => intro st; rfl
  | cons tp tps ih =>
    intro st
    simp only [List.foldl_cons, inferPairsAux]
    by_cases h0 : keywordHits tp.2 tnl > 0
    · rw [selectLoop_append]
      simp only [if_pos h0]
      rw [innerFold_eq, ih]
    · simp only [if_neg h0, List.nil_append]
      exact ih st

/-- Candidate pairs are empty when every type has zero hits. -/
theorem inferPairsAux_zero (tnl : String) (panels : List String) :
    ∀ tps, tps.all (fun tp => keywordHits tp.2 tnl == 0) = true →
      inferPairsAux tnl panels tps = [] := by
  intro tps
  induction tps with
  | nil => intro _; rfl
  | cons tp tps ih =>
    intro h
    rw [List.all_cons, Bool.and_eq_true] at h
    have h0 : keywordHits tp.2 tnl = 0 := by simpa using h.1
    simp only [inferPairsAux, h0]
    simpa using ih h.2

/-- Candidate pairs over an empty ordered-panel list are empty. -/
theorem inferPairsAux_nil_panels (tnl : String) :
    ∀ tps, inferPairsAux tnl [] tps = [] := by
  intro tps
  induction tps with
  | nil => rfl
  | cons tp tps ih =>
    simp only [inferPairsAux, List.filter_nil, List.map_nil, ite_self, List.nil_append]
    exact ih

/-- C7: `infer_panel_from_test_name` implements the specified best-match rule —
it returns exactly the first candidate (in type-table then ordered-panel
order) attaining the highest keyword-hit count, and none when no type/panel
pair matches; in particular `"Glucose"` against
`["Comp. Metabolic Panel (14)", "CBC With Differential"]` infers the
metabolic panel, never the CBC panel. -/
theorem infer_panel_matches_spec :
    infer_panel_from_test_name "Glucose" ["Comp. Metabolic Panel (14)", "CBC With Differential"] =
      some "Comp. Metabolic Panel (14)" ∧
    (∀ (name : String) (panels : List String),
      infer_panel_from_test_name name panels = specBestPanel name panels) := by
  refine ⟨by decide, ?_⟩
  intro name panels
  unfold infer_panel_from_test_name specBestPanel
  dsimp only
  by_cases hT : pyTruthy name
  · by_cases hP : panels.isEmpty
    · have hpl : panels = [] := by
        cases panels with
        | nil => rfl
        | cons a t => simp [List.isEmpty] at hP
      subst hpl
      rw [if_pos (by simp), inferPairs, inferPairsAux_nil_panels]
      simp [maxCnt]
    · rw [if_neg (by simp [hT, hP])]
      rw [outerFold_eq, selectLoop_eq, inferPairs]
      rw [apply_ite Prod.fst]
  · have hname : name = "" := pyTruthy_eq_false (by simpa using hT)
    subst hname
    rw [if_pos (by simp [show pyTruthy "" = false from rfl])]
    rw [inferPairs, inferPairsAux_zero _ _ _ (by decide)]
    simp [maxCnt]

/-- The state returned by `parse_pdf_content` is the state passed in: no branch
constructs a new `PDFParserState`. -/
theorem parse_pdf_content_state_fixed (st : PDFParserState) (env : Env) (c : PdfBytesM) :
    (parse_pdf_content st env c).2 = st := rfl

/-- C9: parsing is deterministic — for every byte buffer, two invocations of
`parse_pdf_content` on the same bytes (threading the instance state from the
first call into the second) produce structurally identical results, and the
instance state is unchanged by a call: no mutable state carried across calls
affects the output. -/
theorem parse_pdf_content_deterministic (st : PDFParserState) (env : Env) (c : PdfBytesM) :
    (parse_pdf_content st env c).2 = st ∧
    (parse_pdf_content (parse_pdf_content st env c).2 env c).1 =
      (parse_pdf_content st env c).1 := by
  refine ⟨parse_pdf_content_state_fixed st env c, ?_⟩
  rw [parse_pdf_content_state_fixed st env c]

/-- C8 (the claim is what the spec intends; the code masks the error): on a
structurally corrupt container, `parse_pdf_content` does **not** surface the
distinct unreadable-container `PdfReadError` — `extract_text_from_pdf`
swallows it and returns `""`, so the call fails with the generic
`ValueError` built from the empty-document message. -/
theorem parse_pdf_content_corrupt_masked (st : PDFParserState) (env : Env)
    (c : PdfBytesM) (h : corruptPdf c) :
    (parse_pdf_content st env c).1 =
      Except.error (ParseExc.valueError
        "PDF parsing failed: PDF appears to be empty or contains no readable text") ∧
    ∀ m : String, (parse_pdf_content st env c).1 ≠ Except.error (ParseExc.pdfReadError m) := by
  obtain ⟨h1, h2, h3⟩ := h
  have hplumb : parse_with_pdfplumber env c = none := by
    unfold parse_with_pdfplumber
    rw [h3]
  have htext : extract_text_from_pdf c = "" := by
    unfold extract_text_from_pdf
    rw [h2]
  have hmain : (parse_pdf_content st env c).1 =
      Except.error (ParseExc.valueError
        "PDF parsing failed: PDF appears to be empty or contains no readable text") := by
    unfold parse_pdf_content
    rw [h1, hplumb, htext]
    rfl
  exact ⟨hmain, fun m hcontra => by rw [hmain] at hcontra; exact absurd hcontra (by simp)⟩

/-- Witness for C8 at a concrete corrupt buffer. -/
theorem parse_pdf_content_corrupt_masked_witness :
    (parse_pdf_content PDFParser_init ⟨fun _ => none⟩ ⟨false, none, none⟩).1 =
      Except.error (ParseExc.valueError
        "PDF parsing failed: PDF appears to be empty or contains no readable text") ∧
    ∀ m : String,
      (parse_pdf_content PDFParser_init ⟨fun _ => none⟩ ⟨false, none, none⟩).1 ≠
        Except.error (ParseExc.pdfReadError m) :=
  parse_pdf_content_corrupt_masked PDFParser_init ⟨fun _ => none⟩ ⟨false, none, none⟩
    ⟨rfl, rfl, rfl⟩

/-- C2 counterexample: the claim says any unparsed input has its original text
preserved, but the code stores the *stripped* text: on `" unk "` the stored
text is `"unk"`, not the original `" unk "`. -/
theorem parse_reference_range_text_stripped :
    parse_reference_range " unk " = ⟨none, none, "unk"⟩ ∧ ("unk" : String) ≠ " unk " := by
  exact ⟨by decide, by decide⟩

/-- C2 (amended: the preserved text is the whitespace-trimmed input, not the
verbatim original): `parse_reference_range` trims its input; a trimmed `"A-B"`
with float halves and no leading `<`/`>` yields `{low:A, high:B}`; a trimmed
`"<B"` yields `{low:null, high:B}`; a trimmed `">A"` yields `{low:A,
high:null}`; bounds are populated in no other situation; and the stored text is
always the trimmed input.  Concrete cases: `"5.0-10.0"`, `"<5.0"`, `">10.0"`,
`""`. -/
theorem parse_reference_range_spec :
    (∀ s : String, (parse_reference_range s).text = pyStrip s) ∧
    (∀ (s a b : String) (x y : PyFloat),
      pyIn "-" (pyStrip s) = true →
      pyStartsWith (pyStrip s) "<" = false →
      pyStartsWith (pyStrip s) ">" = false →
      pySplitChar (pyStrip s) '-' = [a, b] →
      pyFloat? (pyStrip a) = some x →
      pyFloat? (pyStrip b) = some y →
      parse_reference_range s = ⟨some x, some y, pyStrip s⟩) ∧
    (∀ (s : String) (x : PyFloat),
      pyStartsWith (pyStrip s) "<" = true →
      pyFloat? (pyStrip (String.mk ((pyStrip s).data.drop 1))) = some x →
      parse_reference_range s = ⟨none, some x, pyStrip s⟩) ∧
    (∀ (s : String) (x : PyFloat),
      pyStartsWith (pyStrip s) ">" = true →
      pyFloat? (pyStrip (String.mk ((pyStrip s).data.drop 1))) = some x →
      parse_reference_range s = ⟨some x, none, pyStrip s⟩) ∧
    (∀ s : String,
      ((parse_reference_range s).low = none ∧ (parse_reference_range s).high = none) ∨
      ((parse_reference_range s).low.isSome ∧ (parse_reference_range s).high.isSome ∧
        pyStartsWith (pyStrip s) "<" = false ∧ pyStartsWith (pyStrip s) ">" = false ∧
        (pySplitChar (pyStrip s) '-').length = 2) ∨
      ((parse_reference_range s).low = none ∧ (parse_reference_range s).high.isSome ∧
        pyStartsWith (pyStrip s) "<" = true) ∨
      ((parse_reference_range s).low.isSome ∧ (parse_reference_range s).high = none ∧
        pyStartsWith (pyStrip s) ">" = true)) ∧
    (parse_reference_range "5.0-10.0" =
      ⟨some (PyFloat.fin 5), some (PyFloat.fin 10), "5.0-10.0"⟩) ∧
    (parse_reference_range "<5.0" = ⟨none, some (PyFloat.fin 5), "<5.0"⟩) ∧
    (parse_reference_range ">10.0" = ⟨some (PyFloat.fin 10), none, ">10.0"⟩) ∧
    (parse_reference_range "" = ⟨none, none, ""⟩) := by
  refine ⟨?_, ?_, ?_, ?_, ?_, by decide, by decide, by decide, by decide⟩
  · intro s
    by_cases hT : pyTruthy s
    · unfold parse_reference_range
      simp only [hT, Bool.not_true, Bool.false_eq_true, if_false]
      split
      · split <;> (try split) <;> rfl
      · split
        · split <;> rfl
        · split
          · split <;> rfl
          · rfl
    · have hs : s = "" := pyTruthy_eq_false (by simpa using hT)
      rw [hs]
      decide
  · intro s a b x y h1 h2 h3 hsplit hfa hfb
    have hT : pyTruthy s = true := by
      by_contra hc
      have hs : s = "" := pyTruthy_eq_false (by simpa using hc)
      rw [hs] at h1
      exact absurd h1 (by decide)
    unfold parse_reference_range
    simp only [hT, Bool.not_true, Bool.false_eq_true, if_false]
    rw [h1, h2, h3]
    simp only [Bool.not_false, Bool.and_true, Bool.true_and, if_true]
    rw [hsplit]
    simp only []
    rw [hfa, hfb]
  · intro s x h1 hf
    have hT : pyTruthy s = true := by
      by_contra hc
      have hs : s = "" := pyTruthy_eq_false (by simpa using hc)
      rw [hs] at h1
      exact absurd h1 (by decide)
    unfold parse_reference_range
    simp only [hT, Bool.not_true, Bool.false_eq_true, if_false]
    have hIn : (pyIn "-" (pyStrip s) && !pyStartsWith (pyStrip s) "<" &&
        !pyStartsWith (pyStrip s) ">") = false := by
      rw [h1]; simp
    rw [hIn]
    simp only [Bool.false_eq_true, if_false]
    rw [h1]
    simp only [if_true]
    rw [hf]
  · intro s x h1 hf
    have hT : pyTruthy s = true := by
      by_contra hc
      have hs : s = "" := pyTruthy_eq_false (by simpa using hc)
      rw [hs] at h1
      exact absurd h1 (by decide)
    have hlt : pyStartsWith (pyStrip s) "<" = false := by
      rcases hdd : (pyStrip s).data with _ | ⟨c, cs⟩
      · rw [pyStartsWith, hdd] at h1
        exact absurd h1 (by decide)
      · rw [pyStartsWith, hdd] at h1 ⊢
        simp only [show (">" : String).data = ['>'] from rfl,
          show ("<" : String).data = ['<'] from rfl, isPrefL, Bool.and_eq_true,
          decide_eq_true_eq] at h1 ⊢
        rcases h1 with ⟨hc1, _⟩
        subst hc1
        decide
    unfold parse_reference_range
    simp only [hT, Bool.not_true, Bool.false_eq_true, if_false]
    have hIn : (pyIn "-" (pyStrip s) && !pyStartsWith (pyStrip s) "<" &&
        !pyStartsWith (pyStrip s) ">") = false := by
      rw [h1]; simp
    rw [hIn]
    simp only [Bool.false_eq_true, if_false]
    rw [hlt]
    simp only [Bool.false_eq_true, if_false]
    rw [h1]
    simp only [if_true]
    rw [hf]
  · intro s
    by_cases hT : pyTruthy s
    · unfold parse_reference_range
      simp only [hT, Bool.not_true, Bool.false_eq_true, if_false]
      split
      · rename_i hcond
        rcases Bool.and_eq_true .. |>.mp hcond with ⟨h12, h3⟩
        rcases Bool.and_eq_true .. |>.mp h12 with ⟨_, h2⟩
        split
        · split
          · right; left
            exact ⟨rfl, rfl, by simpa using h2, by simpa using h3, by simp_all⟩
          · left; exact ⟨rfl, rfl⟩
        · left; exact ⟨rfl, rfl⟩
      · split
        · rename_i hsw
          split
          · right; right; left; exact ⟨rfl, rfl, hsw⟩
          · left; exact ⟨rfl, rfl⟩
        · split
          · rename_i hsw
            split
            · right; right; right; exact ⟨rfl, rfl, hsw⟩
            · left; exact ⟨rfl, rfl⟩
          · left; exact ⟨rfl, rfl⟩
    · have hs : s = "" := pyTruthy_eq_false (by simpa using hT)
      rw [hs]
      left
      exact ⟨rfl, rfl⟩

/-- Witness for C2: the conditional clauses applied at concrete inputs. -/
theorem parse_reference_range_spec_witness :
    parse_reference_range "70-99" =
      ⟨some (PyFloat.fin 70), some (PyFloat.fin 99), pyStrip "70-99"⟩ ∧
    parse_reference_range "<4" = ⟨none, some (PyFloat.fin 4), pyStrip "<4"⟩ ∧
    parse_reference_range ">4" = ⟨some (PyFloat.fin 4), none, pyStrip ">4"⟩ :=
  ⟨parse_reference_range_spec.2.1 "70-99" "70" "99" _ _ (by decide) (by decide) (by decide)
      (by decide) (by decide) (by decide),
    parse_reference_range_spec.2.2.1 "<4" _ (by decide) (by decide),
    parse_reference_range_spec.2.2.2.1 ">4" _ (by decide) (by decide)⟩

/-- C3 counterexample: on `"1<2"` the code removes the *embedded* `<` and
parses `12.0`, while the claimed leading-strip reading yields no numeric
value. -/
theorem parse_numeric_result_not_leading_only :
    parse_numeric_result "1<2" = some (PyFloat.fin 12) ∧
    claimLeadingStripNumeric "1<2" = none := by
  exact ⟨by decide, by decide⟩

/-- C3 (amended: *every* `<` and `>` anywhere in the string is removed, not
just a leading one): `parse_numeric_result` equals float-parsing of the input
with all `<`/`>` characters removed, returning `none` (never raising) when
that fails; in particular `"<0.5"` gives `0.5` and `"Negative"` gives none. -/
theorem parse_numeric_result_spec :
    (parse_numeric_result "<0.5" = some (PyFloat.fin (mkRat 1 2))) ∧
    (parse_numeric_result "Negative" = none) ∧
    (∀ s : String, parse_numeric_result s =
      pyFloat? (String.mk (s.data.filter (fun c => !(c = '<' || c = '>'))))) := by
  refine ⟨by decide, by decide, ?_⟩
  intro s
  by_cases hT : pyTruthy s
  · unfold parse_numeric_result
    rw [hT]
    rfl
  · have hs : s = "" := pyTruthy_eq_false (by simpa using hT)
    rw [hs]
    decide

/-- C4: `"Non Reactive"` is detected as qualitative; standardization maps any
input containing a negative-family term (checked first, so `"NON REACTIVE"`
maps to `"Negative"` despite also containing `"REACTIVE"`) to `"Negative"`,
then positive-family to `"Positive"`, then indeterminate-family to
`"Indeterminate"`, and otherwise returns the trimmed input unchanged. -/
theorem standardize_qualitative_spec :
    (is_qualitative_result "Non Reactive" = true) ∧
    (standardize_qualitative_result "NON REACTIVE" = "Negative") ∧
    (∀ s : String,
      negativeVariants.any (fun v => pyIn v (pyUpper (pyStrip s))) = true →
      standardize_qualitative_result s = "Negative") ∧
    (∀ s : String,
      negativeVariants.any (fun v => pyIn v (pyUpper (pyStrip s))) = false →
      positiveVariants.any (fun v => pyIn v (pyUpper (pyStrip s))) = true →
      standardize_qualitative_result s = "Positive") ∧
    (∀ s : String,
      negativeVariants.any (fun v => pyIn v (pyUpper (pyStrip s))) = false →
      positiveVariants.any (fun v => pyIn v (pyUpper (pyStrip s))) = false →
      indeterminateVariants.any (fun v => pyIn v (pyUpper (pyStrip s))) = true →
      standardize_qualitative_result s = "Indeterminate") ∧
    (∀ s : String,
      negativeVariants.any (fun v => pyIn v (pyUpper (pyStrip s))) = false →
      positiveVariants.any (fun v => pyIn v (pyUpper (pyStrip s))) = false →
      indeterminateVariants.any (fun v => pyIn v (pyUpper (pyStrip s))) = false →
      standardize_qualitative_result s = pyStrip s) := by
  refine ⟨by decide, by decide, ?_, ?_, ?_, ?_⟩
  · intro s h
    have hT : pyTruthy s = true := by
      by_contra hc
      have hs : s = "" := pyTruthy_eq_false (by simpa using hc)
      rw [hs] at h
      exact absurd h (by decide)
    unfold standardize_qualitative_result
    rw [hT]
    simp only [Bool.not_true, Bool.false_eq_true, if_false]
    rw [h]
    rfl
  · intro s hn hp
    have hT : pyTruthy s = true := by
      by_contra hc
      have hs : s = "" := pyTruthy_eq_false (by simpa using hc)
      rw [hs] at hp
      exact absurd hp (by decide)
    unfold standardize_qualitative_result
    rw [hT]
    simp only [Bool.not_true, Bool.false_eq_true, if_false]
    rw [hn, hp]
    rfl
  · intro s hn hp hi
    have hT : pyTruthy s = true := by
      by_contra hc
      have hs : s = "" := pyTruthy_eq_false (by simpa using hc)
      rw [hs] at hi
      exact absurd hi (by decide)
    unfold standardize_qualitative_result
    rw [hT]
    simp only [Bool.not_true, Bool.false_eq_true, if_false]
    rw [hn, hp, hi]
    rfl
  · intro s hn hp hi
    by_cases hT : pyTruthy s
    · unfold standardize_qualitative_result
      rw [hT]
      simp only [Bool.not_true, Bool.false_eq_true, if_false]
      rw [hn, hp, hi]
      rfl
    · have hs : s = "" := pyTruthy_eq_false (by simpa using hT)
      rw [hs]
      decide

/-- Witness for C4 at concrete inputs of each family. -/
theorem standardize_qualitative_spec_witness :
    standardize_qualitative_result " Not Detected " = "Negative" ∧
    standardize_qualitative_result "REACTIVE" = "Positive" ∧
    standardize_qualitative_result " Inconclusive" = "Indeterminate" ∧
    standardize_qualitative_result " odd text " = pyStrip " odd text " :=
  ⟨standardize_qualitative_spec.2.2.1 " Not Detected " (by decide),
    standardize_qualitative_spec.2.2.2.1 "REACTIVE" (by decide) (by decide),
    standardize_qualitative_spec.2.2.2.2.1 " Inconclusive" (by decide) (by decide) (by decide),
    standardize_qualitative_spec.2.2.2.2.2 " odd text " (by decide) (by decide) (by decide)⟩

/-- C6 (the claim matches the code's own comment, "everything before the
*last* parentheses that contains numbers", but the regex stops at the *first*):
on the documented ordered-panel line the second panel comes out as
`"Comp. Metabolic Panel"`, with the inner parenthetical `"(14)"` stripped
away rather than kept. -/
theorem extract_panels_inner_parenthetical_lost :
    extract_panels_from_ordered_line
        "CBC With Differential/Platelet (005009); Comp. Metabolic Panel (14) (322000);" =
      ["CBC With Differential/Platelet", "Comp. Metabolic Panel"] ∧
    extract_single_panel_from_text "Comp. Metabolic Panel (14) (322000)" =
      some "Comp. Metabolic Panel" ∧
    (["CBC With Differential/Platelet", "Comp. Metabolic Panel"] ≠
      ["CBC With Differential/Platelet", "Comp. Metabolic Panel (14)"]) := by
  exact ⟨by decide, by decide, by decide⟩

/-- Processing the Glucose row yields the claimed record for every flag value:
the FLAG column has no role, so its cell is never read. -/
theorem glucoseRowFlagInvariant (v : String) :
    process_row_with_headers ["Glucose", "87", v, "70-99", "mg/dL"]
        ["TEST", "RESULT", "FLAG", "REFERENCE INTERVAL", "UNIT"] =
      some { name := "Glucose", result := "87", result_text := none, unit := "mg/dL"
           , reference_range := ⟨some (PyFloat.fin 70), some (PyFloat.fin 99), "70-99"⟩
           , is_numeric := true, is_qualitative := false
           , numeric_value := some (PyFloat.fin 87), panel_name := none } := by
  unfold process_row_with_headers
  dsimp only
  rw [show buildColumnMap
      (normalizeHeaders ["TEST", "RESULT", "FLAG", "REFERENCE INTERVAL", "UNIT"]) =
      { test := some 0, result := some 1, unit := some 4, reference := some 3 } from by decide]
  dsimp only
  rw [show cellAt ["Glucose", "87", v, "70-99", "mg/dL"] (some 0) = some "Glucose" from rfl]
  rw [show cellAt ["Glucose", "87", v, "70-99", "mg/dL"] (some 1) = some "87" from rfl]
  rw [show cellAt ["Glucose", "87", v, "70-99", "mg/dL"] (some 4) = some "mg/dL" from rfl]
  rw [show cellAt ["Glucose", "87", v, "70-99", "mg/dL"] (some 3) = some "70-99" from rfl]
  rw [show cleanTestNameCell (some "Glucose") = some (some "Glucose") from by decide]
  dsimp only
  rw [show cleanUnitCell (some "mg/dL") = some "mg/dL" from by decide]
  rw [show (pyFalsyO (some "Glucose") || pyFalsyO (some "87")) = false from by decide]
  simp only [Bool.false_eq_true, if_false]
  decide

/-- C5: the table with headers `["TEST","RESULT","FLAG","REFERENCE
INTERVAL","UNIT"]` qualifies as a results table; the column map assigns
test→0, result→1, reference→3, unit→4 and no role to the FLAG column; and the
row `["Glucose","87",v,"70-99","mg/dL"]` yields exactly the claimed record for
*every* flag value `v` — the flag cell influences nothing. -/
theorem glucose_table_flag_ignored :
    is_test_results_table ["TEST", "RESULT", "FLAG", "REFERENCE INTERVAL", "UNIT"] = true ∧
    buildColumnMap (normalizeHeaders ["TEST", "RESULT", "FLAG", "REFERENCE INTERVAL", "UNIT"]) =
      { test := some 0, result := some 1, unit := some 4, reference := some 3 } ∧
    process_table_with_ordered_panels
        [["TEST", "RESULT", "FLAG", "REFERENCE INTERVAL", "UNIT"],
          ["Glucose", "87", "H", "70-99", "mg/dL"]] [] =
      [{ name := "Glucose", result := "87", result_text := none, unit := "mg/dL"
       , reference_range := ⟨some (PyFloat.fin 70), some (PyFloat.fin 99), "70-99"⟩
       , is_numeric := true, is_qualitative := false
       , numeric_value := some (PyFloat.fin 87), panel_name := none }] ∧
    (∀ v : String,
      process_row_with_headers ["Glucose", "87", v, "70-99", "mg/dL"]
          ["TEST", "RESULT", "FLAG", "REFERENCE INTERVAL", "UNIT"] =
        some { name := "Glucose", result := "87", result_text := none, unit := "mg/dL"
             , reference_range := ⟨some (PyFloat.fin 70), some (PyFloat.fin 99), "70-99"⟩
             , is_numeric := true, is_qualitative := false
             , numeric_value := some (PyFloat.fin 87), panel_name := none }) := by
  refine ⟨by decide, by decide, by decide, ?_⟩
  intro v
  exact glucoseRowFlagInvariant v

/-- Every element of a `takeWhile` satisfies the predicate. -/
theorem takeWhile_all_self (p : Char → Bool) :
    ∀ l : List Char, (l.takeWhile p).all p = true := by
  intro l
  induction l with
  | nil => rfl
  | cons a t ih =>
    rw [List.takeWhile_cons]
    by_cases hp : p a = true
    · simp only [hp, if_true, List.all_cons, Bool.true_and]
      exact ih
    · rw [Bool.not_eq_true] at hp
      simp [hp]

/-- Pointwise implication lifts through `List.all`. -/
theorem all_mono {p q : Char → Bool} (hpq : ∀ c, p c = true → q c = true) :
    ∀ {l : List Char}, l.all p = true → l.all q = true := by
  intro l h
  simp only [List.all_eq_true] at h ⊢
  intro c hc
  exact hpq c (h c hc)

/-- Digit/dot characters are not Python whitespace. -/
theorem isDigitDot_not_ws {c : Char} (h : isDigitDot c = true) : pyIsSpace c = false := by
  by_contra hne
  rw [Bool.not_eq_false] at hne
  simp only [pyIsSpace, Bool.or_eq_true, decide_eq_true_eq] at hne
  rcases hne with ((((h1 | h1) | h1) | h1) | h1) | h1 <;> subst h1 <;>
    exact absurd h (by decide)

/-- A digit/dot run contains no whitespace. -/
theorem all_not_ws_of_all_digitDot {l : List Char} (h : l.all isDigitDot = true) :
    l.all (fun c => !pyIsSpace c) = true :=
  all_mono (fun x hx => show (!pyIsSpace x) = true by rw [isDigitDot_not_ws hx]; rfl) h

/-- Digit/dot characters are not angle brackets. -/
theorem isDigitDot_not_angle {c : Char} (h : isDigitDot c = true) :
    (c = '<' || c = '>') = false := by
  by_contra hne
  rw [Bool.not_eq_false] at hne
  simp only [Bool.or_eq_true, decide_eq_true_eq] at hne
  rcases hne with h1 | h1 <;> subst h1 <;> exact absurd h (by decide)

/-- `dropWhile` is the identity on a list none of whose elements satisfy the
predicate. -/
theorem dropWhile_of_none (l : List Char)
    (h : l.all (fun c => !pyIsSpace c) = true) : l.dropWhile pyIsSpace = l := by
  cases l with
  | nil => rfl
  | cons a t =>
    rw [List.dropWhile_cons]
    simp only [List.all_cons, Bool.and_eq_true, Bool.not_eq_true'] at h
    simp [h.1]

/-- `pyStripL` is the identity on a list with no whitespace characters. -/
theorem pyStripL_of_none {l : List Char}
    (h : l.all (fun c => !pyIsSpace c) = true) : pyStripL l = l := by
  unfold pyStripL
  rw [dropWhile_of_none l h]
  rw [dropWhile_of_none l.reverse (by rw [List.all_reverse]; exact h)]
  exact List.reverse_reverse l

/-- The shape predicate holds for an angle bracket followed by a nonempty
digit/dot run. -/
theorem resultTokenShape_angle {c : Char} {l : List Char}
    (hc : (c = '<' || c = '>') = true) (hl : l.all isDigitDot = true)
    (hne : l.isEmpty = false) : resultTokenShape (String.mk (c :: l)) = true := by
  unfold resultTokenShape
  dsimp only
  simp [hc, hl, hne]

/-- The shape predicate holds for a nonempty digit/dot run with no leading
angle bracket. -/
theorem resultTokenShape_noangle {c : Char} {l : List Char}
    (hc : (c = '<' || c = '>') = false)
    (hall : (c :: l).all isDigitDot = true) :
    resultTokenShape (String.mk (c :: l)) = true := by
  unfold resultTokenShape
  dsimp only
  simp only [hc, Bool.false_eq_true, if_false]
  exact hall

/-- Any token produced by `parseResultToken` has the claimed shape and
contains no whitespace characters. -/
theorem parseResultToken_shape {cs tok rest : List Char}
    (h : parseResultToken cs = some (tok, rest)) :
    resultTokenShape (String.mk tok) = true ∧
      tok.all (fun c => !pyIsSpace c) = true := by
  unfold parseResultToken at h
  split at h
  next c r =>
    dsimp only at h
    split at h
    next hc =>
      split at h
      next => exact absurd h (by simp)
      next hne =>
        rw [Option.some_inj, Prod.mk.injEq] at h
        obtain ⟨htok, -⟩ := h
        have hall := takeWhile_all_self isDigitDot r
        cases htw : r.takeWhile isDigitDot with
        | nil => rw [htw] at hne; exact absurd rfl hne
        | cons d dt =>
          rw [htw] at hall htok
          subst htok
          constructor
          · exact resultTokenShape_angle hc hall rfl
          · have h1 : (!pyIsSpace c) = true := by
              rcases (by simpa using hc : c = '<' ∨ c = '>') with rfl | rfl <;> decide
            have h2 := all_not_ws_of_all_digitDot hall
            simp only [List.all_cons, Bool.and_eq_true] at h2 ⊢
            exact ⟨h1, h2⟩
    next hc =>
      have hc' : (c = '<' || c = '>') = false := by
        cases hh : (c = '<' || c = '>') with
        | false => rfl
        | true => exact absurd hh hc
      split at h
      next => exact absurd h (by simp)
      next hne =>
        rw [Option.some_inj, Prod.mk.injEq] at h
        obtain ⟨htok, -⟩ := h
        have hall := takeWhile_all_self isDigitDot (c :: r)
        cases htw : (c :: r).takeWhile isDigitDot with
        | nil => rw [htw] at hne; exact absurd rfl hne
        | cons d dt =>
          rw [htw] at hall htok
          subst htok
          have hd : isDigitDot d = true := by
            have h2 := hall
            simp only [List.all_cons, Bool.and_eq_true] at h2
            exact h2.1
          exact ⟨resultTokenShape_noangle (isDigitDot_not_angle hd) hall,
            all_not_ws_of_all_digitDot hall⟩
  next => exact absurd h (by simp)

/-- A successful tail match after the name group carries a result token of the
claimed shape with no whitespace. -/
theorem afterNameAt_shape {rest g2 : List Char} {g3 g4 : Option (List Char)}
    (h : afterNameAt rest = some (g2, g3, g4)) :
    resultTokenShape (String.mk g2) = true ∧
      g2.all (fun c => !pyIsSpace c) = true := by
  unfold afterNameAt at h
  split at h
  next d r =>
    split at h
    next =>
      dsimp only at h
      split at h
      next g2' r3 heq =>
        split at h
        next g3' g4' heq2 =>
          rw [Option.some_inj] at h
          simp only [Prod.mk.injEq] at h
          obtain ⟨h1, -, -⟩ := h
          subst h1
          exact parseResultToken_shape heq
        next => exact absurd h (by simp)
      next => exact absurd h (by simp)
    next => exact absurd h (by simp)
  next => exact absurd h (by simp)

/-- Every match produced by the lazy name growth carries a result group of the
claimed shape (whitespace-free, so stripping is the identity). -/
theorem growName_shape :
    ∀ (rest g1rev : List Char) (g1 g2 : String) (g3 g4 : Option String),
      growName g1rev rest = some (g1, g2, g3, g4) →
      resultTokenShape (pyStrip g2) = true := by
  intro rest
  induction rest with
  | nil =>
    intro g1rev g1 g2 g3 g4 h
    unfold growName at h
    rw [show afterNameAt ([] : List Char) = none from rfl] at h
    dsimp only at h
    exact absurd h (by simp)
  | cons c r ih =>
    intro g1rev g1 g2 g3 g4 h
    unfold growName at h
    split at h
    next g2' g3' g4' heq =>
      rw [Option.some_inj] at h
      simp only [Prod.mk.injEq] at h
      obtain ⟨-, h2, -, -⟩ := h
      subst h2
      obtain ⟨hshape, hws⟩ := afterNameAt_shape heq
      unfold pyStrip
      rw [show (String.mk g2').data = g2' from rfl, pyStripL_of_none hws]
      exact hshape
    next =>
      split at h
      next => exact ih (c :: g1rev) g1 g2 g3 g4 h
      next => exact absurd h (by simp)

/-- Every successful line match of the generic text strategy has a result
group of the claimed shape after stripping. -/
theorem matchTestLine_shape {line : String} {g1 g2 : String} {g3 g4 : Option String}
    (h : matchTestLine line = some (g1, g2, g3, g4)) :
    resultTokenShape (pyStrip g2) = true := by
  unfold matchTestLine at h
  rcases hld : line.data with _ | ⟨c0, _ | ⟨c1, rest⟩⟩
  · rw [hld] at h; simp at h
  · rw [hld] at h; simp at h
  · rw [hld] at h
    dsimp only at h
    split at h
    next => exact growName_shape rest [c1, c0] g1 g2 g3 g4 h
    next => exact absurd h (by simp)

/-- Every record in the generic text extractor's output has a result of the
claimed token shape, with `is_numeric` derived from `numeric_value`. -/
theorem extract_tests_mem_shape {text : String} {panels : List String} {r : TextRec}
    (h : r ∈ extract_tests_from_text text panels) :
    resultTokenShape r.result = true ∧ r.is_numeric = r.numeric_value.isSome := by
  unfold extract_tests_from_text at h
  generalize pySplitChar text '\n' = ls at h
  induction ls with
  | nil => exact absurd h (by simp)
  | cons l t ih =>
    rw [List.foldr_cons] at h
    dsimp only at h
    split at h
    next => exact ih h
    next =>
      split at h
      next => exact ih h
      next g1 g2 g3 g4 heq =>
        split at h
        next => exact ih h
        next =>
          rw [List.mem_cons] at h
          rcases h with h | h
          · subst h
            exact ⟨matchTestLine_shape heq, rfl⟩
          · exact ih h

/-- A record built by the header-mapped tail has its booleans derived from the
populated value field. -/
theorem buildHeaderRowRec_inv {tn res unitV refV : String} {r : RowRec}
    (h : buildHeaderRowRec tn res unitV refV = some r) : rowRecDerived r := by
  unfold buildHeaderRowRec at h
  split at h
  next => exact absurd h (by simp)
  next =>
    split at h
    next => exact absurd h (by simp)
    next =>
      dsimp only at h
      rw [Option.some_inj] at h
      subst h
      unfold rowRecDerived
      by_cases hq : is_qualitative_result res = true
      · simp [hq]
      · simp [hq]

/-- A record built by the heuristic row path has its booleans derived from the
populated value field. -/
theorem process_row_heuristic_inv {row : List String} {r : RowRec}
    (h : process_row_heuristic row = some r) : rowRecDerived r := by
  unfold process_row_heuristic at h
  dsimp only at h
  split at h
  next => exact absurd h (by simp)
  next =>
    split at h
    next => exact absurd h (by simp)
    next =>
      rw [Option.some_inj] at h
      subst h
      unfold rowRecDerived
      by_cases hq : is_qualitative_result
          ((row.foldl heuristicStep (none, none, none, none)).2.1.getD "") = true
      · simp [hq]
      · simp [hq]

/-- A record built by the header-mapped row path has its booleans derived from
the populated value field. -/
theorem process_row_with_headers_inv {row headers : List String} {r : RowRec}
    (h : process_row_with_headers row headers = some r) : rowRecDerived r := by
  unfold process_row_with_headers at h
  dsimp only at h
  split at h
  next => exact absurd h (by simp)
  next =>
    split at h
    next => exact process_row_heuristic_inv h
    next => exact buildHeaderRowRec_inv h

/-- C1 counterexample on the vendor path: the LabCorp line parser stores the
raw numeric string `"87"` in `result_text` while the `is_qualitative` and
`numeric_value` lookups read `false`/`none` — the booleans are not derived
from which of the two value fields is set. -/
theorem labcorp_flags_not_derived :
    (parse_labcorp_test_line "Glucose 01 87 90* 08/19/2022 mg/dL 70-99").map
        labRecResultTextGet = some (some "87") ∧
    (parse_labcorp_test_line "Glucose 01 87 90* 08/19/2022 mg/dL 70-99").map
        labRecIsQualitativeGet = some false ∧
    (parse_labcorp_test_line "Glucose 01 87 90* 08/19/2022 mg/dL 70-99").map
        labRecNumericValueGet = some none := by
  refine ⟨by decide, by decide, by decide⟩

/-- C1 (amended: the exactly-one/derived-flags invariant holds for the table
strategy's two row paths; for the generic text strategy the absent
`result_text`/`is_qualitative` keys read as `none`/`false` and `is_numeric`
is derived from `numeric_value`; the vendor LabCorp path always stores the raw
matched string in `result_text` and never sets `numeric_value` or
`is_qualitative`, so its booleans are *not* derived from which field is
set). -/
theorem test_record_flags_derived :
    (∀ (row headers : List String) (r : RowRec),
        process_row_with_headers row headers = some r → rowRecDerived r) ∧
    (∀ (row : List String) (r : RowRec),
        process_row_heuristic row = some r → rowRecDerived r) ∧
    (∀ (text : String) (panels : List String) (r : TextRec),
        r ∈ extract_tests_from_text text panels →
        textRecResultTextGet r = none ∧ r.is_numeric = r.numeric_value.isSome ∧
          textRecIsQualitativeGet r = (textRecResultTextGet r).isSome) ∧
    (∀ (line : String) (r : LabRec),
        parse_labcorp_test_line line = some r →
        labRecNumericValueGet r = none ∧ labRecResultTextGet r = some r.result_text ∧
          labRecIsQualitativeGet r = false) := by
  refine ⟨fun row headers r h => process_row_with_headers_inv h,
    fun row r h => process_row_heuristic_inv h,
    fun text panels r h => ⟨rfl, (extract_tests_mem_shape h).2, rfl⟩,
    fun line r h => ⟨rfl, rfl, rfl⟩⟩

/-- Witness for the amended C1 invariant at a concrete qualitative row. -/
theorem test_record_flags_derived_witness :
    rowRecDerived
      { name := "HIV Ab", result := "Non Reactive", result_text := some "Negative"
      , unit := "", reference_range := ⟨none, none, ""⟩
      , is_numeric := false, is_qualitative := true
      , numeric_value := none, panel_name := none } :=
  test_record_flags_derived.1 ["HIV Ab", "Non Reactive", "", ""]
    ["TEST", "RESULT", "UNIT", "REFERENCE INTERVAL"] _ (by decide)

/-- C10: every record produced by the generic flowed-text extractor has a
result string of the shape `[<>]?[\d.]+` (an optional leading `<`/`>` then
digits and dots), and its dictionary carries no `result_text` and no
`is_qualitative` key (the lookups read `none`/`false`), so the generic text
fallback never yields a qualitative result record. -/
theorem text_strategy_numeric_only :
    ∀ (text : String) (panels : List String) (r : TextRec),
      r ∈ extract_tests_from_text text panels →
      resultTokenShape r.result = true ∧ textRecResultTextGet r = none ∧
        textRecIsQualitativeGet r = false := by
  intro text panels r h
  exact ⟨(extract_tests_mem_shape h).1, rfl, rfl⟩

/-- Witness for C10 at the concrete line `"Glucose 87"`. -/
theorem text_strategy_numeric_only_witness :
    glucose87Rec ∈ extract_tests_from_text "Glucose 87" [] ∧
    (resultTokenShape glucose87Rec.result = true ∧
      textRecResultTextGet glucose87Rec = none ∧
      textRecIsQualitativeGet glucose87Rec = false) :=
  ⟨by decide, text_strategy_numeric_only "Glucose 87" [] glucose87Rec (by decide)⟩

end MLV
